import Mathlib

/-!
Verification of the NOTAM text-to-geometry decoding engine (script.js).

Shallow embedding notes:
* JS strings are modelled as `List Char` (ASCII inputs); the public entry
  points take `String` and work on `String.data`.
* JS numbers (IEEE float64) are modelled as exact rationals `ℚ`; all the
  arithmetic performed by the engine (parseInt/parseFloat, /60, /3600,
  negation, shoelace sums, `toFixed` rounding keys) is exact on the
  inputs of interest, so `ℚ` is the intended denotation.
* Each regular expression of the source is embedded as a dedicated
  executable recogniser implementing the leftmost-match, greedy/lazy
  backtracking semantics of that concrete pattern.  JS `\s` is modelled
  by the ASCII whitespace characters, `\w` by `[A-Za-z0-9_]`.
-/

namespace Notam

/-- ASCII model of the JS regex class `\s`. -/
def isWs (c : Char) : Bool :=
  c = ' ' || c = '\t' || c = '\n' || c = '\r' || c = '\x0b' || c = '\x0c'

/-- JS regex class `\d`. -/
def isDigit (c : Char) : Bool := '0' ≤ c && c ≤ '9'

/-- ASCII letters; with the `i` flag, `[A-Z]` matches both cases. -/
def isLetter (c : Char) : Bool := ('A' ≤ c && c ≤ 'Z') || ('a' ≤ c && c ≤ 'z')

/-- JS regex word character `\w` (used by `\b`). -/
def isWordChar (c : Char) : Bool := isLetter c || isDigit c || c = '_'

/-- Case-insensitive character comparison (`i` flag). -/
def ciEq (a b : Char) : Bool := a.toUpper = b.toUpper

/-- Case-insensitive literal match of `pat` at the head of `s`;
returns the rest of `s` on success. -/
def ciStrip : List Char → List Char → Option (List Char)
  | [], s => some s
  | _ :: _, [] => none
  | p :: ps, c :: cs => if ciEq c p then ciStrip ps cs else none

/-- Number of leading characters of `s` satisfying `p`. -/
def runLen (p : Char → Bool) : List Char → Nat
  | [] => 0
  | c :: cs => if p c then runLen p cs + 1 else 0

/-- Digit value of an ASCII digit character. -/
def digitVal (c : Char) : Nat := c.toNat - '0'.toNat

/-- JS `parseInt(s, 10)` on the digit prefix of `s` (the engine only
applies it to all-digit substrings). -/
def parseIntLead (s : List Char) : Nat :=
  go s 0
where
  go : List Char → Nat → Nat
    | [], acc => acc
    | c :: cs, acc => if isDigit c then go cs (acc * 10 + digitVal c) else acc

/-! Exact rational arithmetic, written through `mkRat` so that every
engine value reduces inside the kernel; each wrapper is proved equal to
the corresponding standard `ℚ` operation in the theorem section. -/

/-- `a + b` on `ℚ` (kernel-computable form). -/
def qadd (a b : ℚ) : ℚ := mkRat (a.num * b.den + b.num * a.den) (a.den * b.den)

/-- `a * b` on `ℚ` (kernel-computable form). -/
def qmul (a b : ℚ) : ℚ := mkRat (a.num * b.num) (a.den * b.den)

/-- `-a` on `ℚ` (kernel-computable form). -/
def qneg (a : ℚ) : ℚ := mkRat (-a.num) a.den

/-- `a - b` on `ℚ` (kernel-computable form). -/
def qsub (a b : ℚ) : ℚ := qadd a (qneg b)

/-- `|a|` on `ℚ` (kernel-computable form). -/
def qabs (a : ℚ) : ℚ := mkRat (Int.ofNat a.num.natAbs) a.den

/-- Fractional part of JS `parseFloat`: the digits after a leading dot,
over `10 ^ count`; 0 when there is no dot. -/
def parseFracPart : List Char → ℚ
  | '.' :: fs => mkRat (parseIntLead (fs.takeWhile isDigit)) (10 ^ (fs.takeWhile isDigit).length)
  | _ => 0

/-- JS `parseFloat` on strings of shape `digits` or `digits.digits`
(the only shapes the engine feeds it): integer part plus the fractional
part after the digit run. -/
def parseDecimal (s : List Char) : ℚ :=
  qadd (mkRat (parseIntLead (s.takeWhile isDigit)) 1) (parseFracPart (s.dropWhile isDigit))

/-- JS `s.trim()` (ASCII whitespace model). -/
def trimChars (s : List Char) : List Char :=
  ((s.dropWhile isWs).reverse.dropWhile isWs).reverse

/-- JS `x.toFixed(f)` as a dedup key: the sign of the printed string
(`"-0.000000"` differs from `"0.000000"`) together with the half-up
rounding of `|x|` to `f` decimal places, i.e.
`⌊|x| * 10 ^ f + 1 / 2⌋`. -/
def toFixedKey (x : ℚ) (f : ℕ) : Bool × ℤ :=
  (decide (x < 0), ⌊qadd (qmul (qabs x) (mkRat (10 ^ f) 1)) (mkRat 1 2)⌋)

/-! ## parseQualifierLineCoordinate (script.js lines 112–140)

Regex `^(\d{4})([NS])(\d{5})([EW])(\d{3})?$` with flag `i`, then
positional decode of `DDMM` / `DDDMM`. -/

/-- Take exactly `n` characters satisfying `p`. -/
def takeExact (p : Char → Bool) : Nat → List Char → Option (List Char × List Char)
  | 0, s => some ([], s)
  | _ + 1, [] => none
  | n + 1, c :: cs =>
      if p c then
        match takeExact p n cs with
        | some (tk, rest) => some (c :: tk, rest)
        | none => none
      else none

/-- The anchored qualifier-coordinate regex: on success, the four
captured groups `(latStr, latDir, lonStr, lonDir, radiusStr?)`. -/
def matchQualifier (s : List Char) :
    Option (List Char × Char × List Char × Char × Option (List Char)) :=
  match takeExact isDigit 4 s with
  | none => none
  | some (latS, r1) =>
    match r1 with
    | [] => none
    | d1 :: r2 =>
      if ciEq d1 'N' || ciEq d1 'S' then
        match takeExact isDigit 5 r2 with
        | none => none
        | some (lonS, r3) =>
          match r3 with
          | [] => none
          | d2 :: r4 =>
            if ciEq d2 'E' || ciEq d2 'W' then
              -- optional `(\d{3})?` then `$`: greedy, with backtracking
              match takeExact isDigit 3 r4 with
              | some (rad, []) => some (latS, d1, lonS, d2, some rad)
              | _ => if r4 = [] then some (latS, d1, lonS, d2, none) else none
            else none
      else none

/-- Positional decode of the qualifier-line coordinate
(script.js lines 119–139). -/
def qualifierFromParts (latS : List Char) (latDir : Char)
    (lonS : List Char) (lonDir : Char) (rad : Option (List Char)) :
    ℚ × ℚ × Option ℚ :=
  let lat : ℚ := qadd (mkRat (parseIntLead (latS.take 2)) 1)
    (mkRat (parseIntLead (latS.drop 2)) 60)
  let lon : ℚ := qadd (mkRat (parseIntLead (lonS.take 3)) 1)
    (mkRat (parseIntLead (lonS.drop 3)) 60)
  let lat := if latDir.toUpper = 'S' then qneg lat else lat
  let lon := if lonDir.toUpper = 'W' then qneg lon else lon
  (lat, lon, rad.map (fun r => mkRat (parseIntLead r) 1))

/-- `parseQualifierLineCoordinate` (script.js lines 112–140). -/
def parseQualifierLineCoordinate (s : String) : Option (ℚ × ℚ × Option ℚ) :=
  (matchQualifier s.data).map
    (fun (latS, latDir, lonS, lonDir, rad) =>
      qualifierFromParts latS latDir lonS lonDir rad)

/-! ## parseDMSCoordinate (script.js lines 143–217)

Two regexes are tried in order:
with space    `(\d{6,7}(?:\.\d+)?)\s*([NS])?\s+(\d{7,8}(?:\.\d+)?)\s*([EW])?`
without space `(\d{6,7}(?:\.\d+)?)([NS])?(\d{7,8}(?:\.\d+)?)([EW])?`
both with flag `i`, then positional decode with a normalization step for
7-digit non-decimal longitudes. -/

/-- `(?:\.\d+)?` after a digit token: append the fraction when a dot
followed by at least one digit is present (the skip alternative can
never rescue a failed continuation because a bare `.` matches nothing
later in these patterns). -/
def takeFracOpt (digs : List Char) (rest : List Char) : List Char × List Char :=
  match rest with
  | '.' :: r2 =>
      let fd := r2.takeWhile isDigit
      if fd.length = 0 then (digs, rest)
      else (digs ++ '.' :: fd, r2.drop fd.length)
  | _ => (digs, rest)

/-- Latitude token of the spaced DMS regex: `\d{6,7}(?:\.\d+)?` where the
digit run must be wholly consumed (a leftover digit can match nothing in
the `\s*([NS])?\s+` continuation). -/
def matchLatTok16 (s : List Char) : Option (List Char × List Char) :=
  let k := runLen isDigit s
  if 6 ≤ k && k ≤ 7 then some (takeFracOpt (s.take k) (s.drop k))
  else none

/-- `\s*([NS])?\s+` between the two tokens of the spaced DMS regex. -/
def matchMid16 (s : List Char) : Option (Option Char × List Char) :=
  let w1 := runLen isWs s
  match s.drop w1 with
  | c :: r2 =>
      if ciEq c 'N' || ciEq c 'S' then
        let w2 := runLen isWs r2
        if 1 ≤ w2 then some (some c, r2.drop w2) else none
      else if 1 ≤ w1 then some (none, s.drop w1) else none
  | [] => if 1 ≤ w1 then some (none, []) else none

/-- Longitude token `\d{7,8}(?:\.\d+)?`: greedy, 8 digits when at least
8 are available (everything after is optional), else exactly 7. -/
def matchLonTok (s : List Char) : Option (List Char × List Char) :=
  let k := runLen isDigit s
  if 8 ≤ k then
    if k = 8 then some (takeFracOpt (s.take 8) (s.drop 8))
    else some (s.take 8, s.drop 8)
  else if k = 7 then some (takeFracOpt (s.take 7) (s.drop 7))
  else none

/-- `\s*([EW])?` closing the spaced DMS regex (nothing after it is
required, so it always succeeds). -/
def matchDirEW (s : List Char) : Option Char :=
  match s.drop (runLen isWs s) with
  | c :: _ => if ciEq c 'E' || ciEq c 'W' then some c else none
  | [] => none

/-- One attempt of the spaced DMS regex at the current position. -/
def tryR16At (s : List Char) : Option (List Char × Option Char × List Char × Option Char) :=
  match matchLatTok16 s with
  | none => none
  | some (latTok, r1) =>
    match matchMid16 r1 with
    | none => none
    | some (latDir, r2) =>
      match matchLonTok r2 with
      | none => none
      | some (lonTok, r3) => some (latTok, latDir, lonTok, matchDirEW r3)

/-- Leftmost match of the spaced DMS regex. -/
def matchR16 : List Char → Option (List Char × Option Char × List Char × Option Char)
  | [] => none
  | s@(_ :: rest) =>
    match tryR16At s with
    | some g => some g
    | none => matchR16 rest

/-- Longitude-and-direction part of the unspaced DMS regex:
`(\d{7,8}(?:\.\d+)?)([EW])?`. -/
def tryR17Lon (s : List Char) : Option (List Char × Option Char) :=
  match matchLonTok s with
  | none => none
  | some (lonTok, r) =>
      match r with
      | c :: _ => if ciEq c 'E' || ciEq c 'W' then some (lonTok, some c) else some (lonTok, none)
      | [] => some (lonTok, none)

/-- Continuation of the unspaced DMS regex once the latitude token is
fixed: optional `[NS]` (capturing it can only help: skipping leaves a
letter where `\d{7,8}` is required), then the longitude part. -/
def tryR17NS (latTok : List Char) :
    List Char → Option (List Char × Option Char × List Char × Option Char)
  | c :: r2 =>
    if ciEq c 'N' || ciEq c 'S' then
      match tryR17Lon r2 with
      | some (lonTok, lonDir) => some (latTok, some c, lonTok, lonDir)
      | none => none
    else
      match tryR17Lon (c :: r2) with
      | some (lonTok, lonDir) => some (latTok, none, lonTok, lonDir)
      | none => none
  | [] => none

/-- Latitude-fraction alternatives of the unspaced DMS regex: the greedy
`\d+` inside `(?:\.\d+)?` first takes all the fraction digits, then
gives them back one at a time to the mandatory `\d{7,8}` longitude that
follows, and finally the whole fraction group is skipped (the dot then
stays in place, where nothing later in the pattern can match it). -/
def tryR17Frac (digs r2 : List Char) :
    ℕ → Option (List Char × Option Char × List Char × Option Char)
  | 0 => tryR17NS digs ('.' :: r2)
  | f + 1 =>
    match tryR17NS (digs ++ '.' :: r2.take (f + 1)) (r2.drop (f + 1)) with
    | some g => some g
    | none => tryR17Frac digs r2 f

/-- Continuation of the unspaced DMS regex after a chosen latitude-digit
count: explore the fraction alternatives when a dot followed by digits
is present, else continue without a fraction. -/
def tryR17After (digs : List Char) (rest : List Char) :
    Option (List Char × Option Char × List Char × Option Char) :=
  match rest with
  | '.' :: r2 =>
    if runLen isDigit r2 = 0 then tryR17NS digs rest
    else tryR17Frac digs r2 (runLen isDigit r2)
  | _ => tryR17NS digs rest

/-- One attempt of the unspaced DMS regex at the current position:
`\d{6,7}` is greedy, so 7 digits are tried before 6. -/
def tryR17At (s : List Char) : Option (List Char × Option Char × List Char × Option Char) :=
  let k := runLen isDigit s
  if 7 ≤ k then
    match tryR17After (s.take 7) (s.drop 7) with
    | some g => some g
    | none => tryR17After (s.take 6) (s.drop 6)
  else if k = 6 then tryR17After (s.take 6) (s.drop 6)
  else none

/-- Leftmost match of the unspaced DMS regex. -/
def matchR17 : List Char → Option (List Char × Option Char × List Char × Option Char)
  | [] => none
  | s@(_ :: rest) =>
    match tryR17At s with
    | some g => some g
    | none => matchR17 rest

/-- Normalization of a 7-digit non-decimal longitude token
(script.js lines 167–176): starts with `0` → append a trailing `0`,
otherwise prepend a leading `0`. -/
def normalizeLon7 (lonStr : List Char) : List Char :=
  if lonStr.length = 7 && !(lonStr.contains '.') then
    if lonStr.head? = some '0' then lonStr ++ ['0'] else '0' :: lonStr
  else lonStr

/-- Latitude seconds (script.js lines 179–192): decimal tokens take the
tail from position 4, 7-digit tokens read an implicit tenths digit,
6-digit tokens read the plain tail. -/
def dmsLatSec (latStr : List Char) : ℚ :=
  if latStr.contains '.' then parseDecimal (latStr.drop 4)
  else if latStr.length = 7 then
    parseDecimal (((latStr.drop 4).take 2) ++ '.' :: latStr.drop 6)
  else parseDecimal (latStr.drop 4)

/-- Latitude decode (script.js lines 178–192 and 210, 213):
`deg + min / 60 + sec / 3600`, negated for `S`. -/
def dmsLatVal (latStr : List Char) (latDir : Char) : ℚ :=
  let lat :=
    qadd (qadd (mkRat (parseIntLead (latStr.take 2)) 1)
        (mkRat (parseIntLead ((latStr.drop 2).take 2)) 60))
      (qmul (dmsLatSec latStr) (mkRat 1 3600))
  if latDir.toUpper = 'S' then qneg lat else lat

/-- Longitude seconds (script.js lines 194–208), applied after
normalization. -/
def dmsLonSec (lonStr : List Char) : ℚ :=
  if lonStr.contains '.' then parseDecimal (lonStr.drop 5)
  else if lonStr.length = 8 then
    parseDecimal (((lonStr.drop 5).take 2) ++ '.' :: lonStr.drop 7)
  else parseDecimal (lonStr.drop 5)

/-- Longitude decode including the 7-digit normalization
(script.js lines 167–176, 194–208 and 211, 214). -/
def dmsLonVal (lonStr₀ : List Char) (lonDir : Char) : ℚ :=
  let lonStr := normalizeLon7 lonStr₀
  let lon :=
    qadd (qadd (mkRat (parseIntLead (lonStr.take 3)) 1)
        (mkRat (parseIntLead ((lonStr.drop 3).take 2)) 60))
      (qmul (dmsLonSec lonStr) (mkRat 1 3600))
  if lonDir.toUpper = 'W' then qneg lon else lon

/-- Decode of the four regex groups; absent hemisphere letters default
to `N` / `E` (script.js lines 162–165). The latitude and longitude
computations are independent of each other. -/
def dmsFromParts (latStr : List Char) (latDir : Option Char)
    (lonStr : List Char) (lonDir : Option Char) : ℚ × ℚ :=
  (dmsLatVal latStr (latDir.getD 'N'), dmsLonVal lonStr (lonDir.getD 'E'))

/-- The regex stage of `parseDMSCoordinate`: the spaced form first,
then the unspaced form (script.js lines 151–155). -/
def matchDMS (t : List Char) : Option (List Char × Option Char × List Char × Option Char) :=
  match matchR16 t with
  | some g => some g
  | none => matchR17 t

/-- `parseDMSCoordinate` (script.js lines 143–217). -/
def parseDMSCoordinate (s : String) : Option (ℚ × ℚ) :=
  (matchDMS (trimChars s.data)).map (fun (la, ld, lo, od) => dmsFromParts la ld lo od)

/-! ## Data model -/

/-- The `type` tag of an extracted coordinate (`'psn'` / `'qualifierLine'`). -/
inductive CoordType where
  | psn
  | qualifierLine
deriving DecidableEq, Repr

/-- A coordinate object as pushed by `parseNotams`; PSN coordinates carry
no radius field, modelled by `radius = none`. -/
structure Coord where
  original : String
  lat : ℚ
  lon : ℚ
  radius : Option ℚ
  ctype : CoordType
deriving DecidableEq, Repr

/-- A NOTAM entry as pushed by `parseNotams` (script.js lines 426–432). -/
structure NotamRecord where
  id : String
  fullContent : String
  coordinates : List Coord
  icaoCodes : List String
  isPolygon : Bool
deriving DecidableEq, Repr

/-- ~1 m dedup key: `lat.toFixed(6)_lon.toFixed(6)` (script.js line 328). -/
def posKey6 (lat lon : ℚ) : (Bool × ℤ) × (Bool × ℤ) :=
  (toFixedKey lat 6, toFixedKey lon 6)

/-- ~111 m dedup key: `lat.toFixed(3)_lon.toFixed(3)` (script.js line 329). -/
def posKey3 (lat lon : ℚ) : (Bool × ℤ) × (Bool × ℤ) :=
  (toFixedKey lat 3, toFixedKey lon 3)

/-! ## cleanNotamContent (script.js lines 220–226) -/

/-- Split a character list at every `'\n'`. -/
def splitNL (s : List Char) : List (List Char) :=
  match s with
  | [] => [[]]
  | '\n' :: rest => [] :: splitNL rest
  | c :: rest =>
    match splitNL rest with
    | [] => [[c]]
    | l :: ls => (c :: l) :: ls

/-- `cleanNotamContent`: split on newlines, trim each line, drop empty
lines, re-join with newlines. -/
def cleanNotamContent (content : List Char) : String :=
  String.mk (List.intercalate ['\n']
    (((splitNL content).map trimChars).filter (fun l => l ≠ [])))

/-! ## NOTAM content truncation at the first empty line
(script.js lines 251–254, regex `\n\s*\n`) -/

/-- Does the leading whitespace run of `s` contain a newline?  This is
exactly when `\s*\n` can match at the head of `s`. -/
def wsPrefixHasNL : List Char → Bool
  | [] => false
  | c :: r => if c = '\n' then true else if isWs c then wsPrefixHasNL r else false

/-- Truncate at the first match of `\n\s*\n` (the match itself excluded). -/
def truncAtEmptyLine : List Char → List Char
  | [] => []
  | c :: r => if c = '\n' && wsPrefixHasNL r then [] else c :: truncAtEmptyLine r

/-- The notice body used for all downstream parsing. -/
def noticeContent (seg : List Char) : List Char := truncAtEmptyLine seg

/-! ## E) section extraction
(script.js line 262, regex `E\)([\s\S]+?)(?=\n[A-Z]\)|$)` with flag `i`) -/

/-- Does the lazy body stop here, i.e. does the lookahead `\n[A-Z]\)`
hold at this position? -/
def eLookaheadStops : List Char → Bool
  | '\n' :: d :: ')' :: _ => isLetter d
  | _ => false

/-- Extend the lazy `[\s\S]+?` body until the earliest stop point or the
end of the input. -/
def eBodyTail : List Char → List Char
  | [] => []
  | c :: r => if eLookaheadStops (c :: r) then [] else c :: eBodyTail r

/-- Leftmost match of the E)-section regex: its capture group, which
always holds at least one character. -/
def eSectionFrom : List Char → Option (List Char)
  | [] => none
  | [_] => none
  | c1 :: c2 :: rest =>
    if ciEq c1 'E' && c2 = ')' then
      match rest with
      | [] => eSectionFrom (c2 :: rest)
      | c :: r => some (c :: eBodyTail r)
    else eSectionFrom (c2 :: rest)

/-- The `eContent` of a notice (script.js lines 262–263). -/
def eSection (content : List Char) : Option (List Char) := eSectionFrom content

/-! ## Keyword tests (script.js lines 228–229, 269–271) -/

/-- Word boundary against the character left of the scan position. -/
def bdyBefore : Option Char → Bool
  | none => true
  | some c => !isWordChar c

/-- Word boundary against the character right of a match end. -/
def wordEndOk : List Char → Bool
  | [] => true
  | c :: _ => !isWordChar c

/-- `\bPSN\b` (flag `i`) somewhere in `s`, with `prev` the character
just before `s` (`none` at string start). -/
def hasWordPSNFrom : Option Char → List Char → Bool
  | _, [] => false
  | prev, s@(c :: rest) =>
    (bdyBefore prev &&
      (match ciStrip ['P', 'S', 'N'] s with
       | some r => wordEndOk r
       | none => false)) ||
    hasWordPSNFrom (some c) rest

/-- `/\bPSN\b/i.test` (script.js line 269 and 309). -/
def hasPsnKeyword (s : List Char) : Bool := hasWordPSNFrom none s

/-- `/\CENTRED\s+ON\b/i.test` (script.js line 270): `\C` is a literal
`C`, so there is no leading word boundary. -/
def hasCentredOn : List Char → Bool
  | [] => false
  | s@(_ :: rest) =>
    (match ciStrip ['C', 'E', 'N', 'T', 'R', 'E', 'D'] s with
     | some r1 =>
       let w := runLen isWs r1
       (1 ≤ w : Bool) &&
         (match ciStrip ['O', 'N'] (r1.drop w) with
          | some r2 => wordEndOk r2
          | none => false)
     | none => false) ||
    hasCentredOn rest

/-- Alternative `LIMITES?\s+LATERALES?` followed by `\b`; returns the
number of characters consumed.  The optional `S` is taken when present
(skipping it either leaves `\s+` facing an `S` or leaves `\b` between
two word characters, so the skip branch can never succeed instead). -/
def altLimites (s : List Char) : Option ℕ :=
  match ciStrip ['L', 'I', 'M', 'I', 'T', 'E'] s with
  | none => none
  | some r1 =>
    let p1 : ℕ × List Char :=
      match r1 with
      | c :: rest => if ciEq c 'S' then (1, rest) else (0, r1)
      | [] => (0, r1)
    let w := runLen isWs p1.2
    if w = 0 then none
    else
      match ciStrip ['L', 'A', 'T', 'E', 'R', 'A', 'L', 'E'] (p1.2.drop w) with
      | none => none
      | some r2 =>
        let p2 : ℕ × List Char :=
          match r2 with
          | c :: rest => if ciEq c 'S' then (1, rest) else (0, r2)
          | [] => (0, r2)
        if wordEndOk p2.2 then some (6 + p1.1 + w + 8 + p2.1) else none

/-- Alternative `LATERAL\s+LIMITS?` followed by `\b`. -/
def altLateral (s : List Char) : Option ℕ :=
  match ciStrip ['L', 'A', 'T', 'E', 'R', 'A', 'L'] s with
  | none => none
  | some r1 =>
    let w := runLen isWs r1
    if w = 0 then none
    else
      match ciStrip ['L', 'I', 'M', 'I', 'T'] (r1.drop w) with
      | none => none
      | some r2 =>
        let p2 : ℕ × List Char :=
          match r2 with
          | c :: rest => if ciEq c 'S' then (1, rest) else (0, r2)
          | [] => (0, r2)
        if wordEndOk p2.2 then some (7 + w + 5 + p2.1) else none

/-- Alternative `AREA` followed by `\b`. -/
def altArea (s : List Char) : Option ℕ :=
  match ciStrip ['A', 'R', 'E', 'A'] s with
  | none => none
  | some r => if wordEndOk r then some 4 else none

/-- Alternative `WI\s+COORD` followed by `\b`. -/
def altWiCoord (s : List Char) : Option ℕ :=
  match ciStrip ['W', 'I'] s with
  | none => none
  | some r1 =>
    let w := runLen isWs r1
    if w = 0 then none
    else
      match ciStrip ['C', 'O', 'O', 'R', 'D'] (r1.drop w) with
      | none => none
      | some r2 => if wordEndOk r2 then some (2 + w + 5) else none

/-- The area-keyword alternation of `areaKeywordsPattern`
(script.js line 228), alternatives in source order; the leading `\b` is
checked by callers against the previous character. -/
def areaAltAt (s : List Char) : Option ℕ :=
  match altLimites s with
  | some n => some n
  | none =>
    match altLateral s with
    | some n => some n
    | none =>
      match altArea s with
      | some n => some n
      | none => altWiCoord s

/-- `areaKeywordsPattern.test` (existence of a match). -/
def areaKwTestFrom : Option Char → List Char → Bool
  | _, [] => false
  | prev, s@(c :: rest) =>
    (bdyBefore prev && (areaAltAt s).isSome) || areaKwTestFrom (some c) rest

/-- `/\bRESTRICTED\s+IN\s+AREA\b/i.test` (script.js line 229). -/
def restrictedInAreaFrom : Option Char → List Char → Bool
  | _, [] => false
  | prev, s@(c :: rest) =>
    (bdyBefore prev &&
      (match ciStrip ['R', 'E', 'S', 'T', 'R', 'I', 'C', 'T', 'E', 'D'] s with
       | some r1 =>
         let w1 := runLen isWs r1
         (1 ≤ w1 : Bool) &&
           (match ciStrip ['I', 'N'] (r1.drop w1) with
            | some r2 =>
              let w2 := runLen isWs r2
              (1 ≤ w2 : Bool) &&
                (match ciStrip ['A', 'R', 'E', 'A'] (r2.drop w2) with
                 | some r3 => wordEndOk r3
                 | none => false)
            | none => false)
       | none => false)) ||
    restrictedInAreaFrom (some c) rest

/-- `hasAreaKeywords` (script.js lines 271 and 403). -/
def hasAreaKeywords (s : List Char) : Bool :=
  areaKwTestFrom none s && !restrictedInAreaFrom none s

/-! ## Extraction start index (script.js lines 278–289)

Global `exec` loop of the area-keyword pattern; the first match followed
within 40 characters (`.{0,40}?`, flag `s`) by a coordinate-shaped token
sets the start index.  The `skip` parameter suppresses match attempts
before the `lastIndex` left by the previous iteration, which makes every
scan loop structurally recursive. -/

/-- Longitude half of the lookahead coordinate shape
`\d{5,8}(?:\.\d+)?[EW]`. -/
def coordShapedLon (s : List Char) : Bool :=
  let k := runLen isDigit s
  if 5 ≤ k && k ≤ 8 then
    match (takeFracOpt (s.take k) (s.drop k)).2 with
    | c :: _ => ciEq c 'E' || ciEq c 'W'
    | [] => false
  else false

/-- The lookahead coordinate shape
`\d{4,7}(?:\.\d+)?[NS]\s+\d{5,8}(?:\.\d+)?[EW]` anchored here. -/
def coordShapedAt (s : List Char) : Bool :=
  let k := runLen isDigit s
  if 4 ≤ k && k ≤ 7 then
    match (takeFracOpt (s.take k) (s.drop k)).2 with
    | c :: r2 =>
      (ciEq c 'N' || ciEq c 'S') &&
        (1 ≤ runLen isWs r2 : Bool) && coordShapedLon (r2.drop (runLen isWs r2))
    | [] => false
  else false

/-- `^.{0,40}?` (flag `s`) then the coordinate shape: try offsets 0–40. -/
def lookWithin : ℕ → List Char → Bool
  | _, [] => false
  | budget, s@(_ :: rest) =>
    coordShapedAt s || (if budget = 0 then false else lookWithin (budget - 1) rest)

/-- The `while (areaMatch = areaSearchPattern.exec(eContent))` loop:
index of the first area-keyword match whose following 40 characters
contain a coordinate-shaped token. -/
def extractionStartFrom : Option Char → ℕ → ℕ → List Char → Option ℕ
  | _, _, _, [] => none
  | prev, skip, pos, s@(c :: rest) =>
    if skip = 0 then
      if bdyBefore prev then
        match areaAltAt s with
        | some n =>
          if lookWithin 40 (s.drop n) then some pos
          else extractionStartFrom (some c) (n - 1) (pos + 1) rest
        | none => extractionStartFrom (some c) 0 (pos + 1) rest
      else extractionStartFrom (some c) 0 (pos + 1) rest
    else extractionStartFrom (some c) (skip - 1) (pos + 1) rest

/-- `extractionStartIndex` (script.js lines 278–289): 0 unless area
keywords are present and some keyword match passes the lookahead. -/
def extractionStartIndex (eC : List Char) : ℕ :=
  if hasAreaKeywords eC then (extractionStartFrom none 0 0 eC).getD 0 else 0

/-! ## Coordinate matches in the E) section
(script.js line 293, regex `(\d{4,7}(?:\.\d+)?[NS])\s+(\d{5,8}(?:\.\d+)?[EW])`
with flags `gi`) -/

/-- A coordinate token `\d{lo,hi}(?:\.\d+)?[d1 d2]`: the digit run must
be wholly consumed, then the optional fraction, then the direction
letter; the returned token includes the direction letter, as captured
by the regex groups. -/
def coordTokAt (lo hi : ℕ) (d1 d2 : Char) (s : List Char) :
    Option (List Char × List Char) :=
  let k := runLen isDigit s
  if lo ≤ k && k ≤ hi then
    match takeFracOpt (s.take k) (s.drop k) with
    | (digs, r) =>
      match r with
      | c :: r2 => if ciEq c d1 || ciEq c d2 then some (digs ++ [c], r2) else none
      | [] => none
  else none

/-- One attempt of the E)-section coordinate regex: group 1, group 2 and
the rest after the whole match. -/
def tryR9At (s : List Char) : Option (List Char × List Char × List Char) :=
  match coordTokAt 4 7 'N' 'S' s with
  | none => none
  | some (m1, r1) =>
    if runLen isWs r1 = 0 then none
    else
      match coordTokAt 5 8 'E' 'W' (r1.drop (runLen isWs r1)) with
      | none => none
      | some (m2, r2) => some (m1, m2, r2)

/-- The `while (match = coordPattern.exec(eContent))` loop: all matches
with their `(index, group1, group2, endIndex)`. -/
def coordMatchesFrom : ℕ → ℕ → List Char → List (ℕ × List Char × List Char × ℕ)
  | _, _, [] => []
  | skip, pos, s@(_ :: rest) =>
    if skip = 0 then
      match tryR9At s with
      | some (m1, m2, r2) =>
        (pos, m1, m2, pos + (s.length - r2.length)) ::
          coordMatchesFrom (s.length - r2.length - 1) (pos + 1) rest
      | none => coordMatchesFrom 0 (pos + 1) rest
    else coordMatchesFrom (skip - 1) (pos + 1) rest

/-- `/^\s*-\s*\d{4,7}/i` on the text after a match (script.js line 310). -/
def afterDashCoord (s : List Char) : Bool :=
  match s.drop (runLen isWs s) with
  | '-' :: r2 => (4 ≤ runLen isDigit (r2.drop (runLen isWs r2)) : Bool)
  | _ => false

/-- Per-match data for the classification loop (script.js lines 300–311):
the decoded coordinate of `match[1] + ' ' + match[2]`, and the
standalone-PSN test on the 10-character window before the match and the
text after it. -/
structure ScanItem where
  index : ℕ
  endIndex : ℕ
  coordStr : List Char
  dec : Option (ℚ × ℚ)
  standalonePsn : Bool
deriving DecidableEq, Repr

/-- Build the `ScanItem` of one regex match. -/
def mkScanItem (eC : List Char) (m : ℕ × List Char × List Char × ℕ) : ScanItem :=
  match m with
  | (p, m1, m2, e) =>
    { index := p
      endIndex := e
      coordStr := m1 ++ ' ' :: m2
      dec := parseDMSCoordinate (String.mk (m1 ++ ' ' :: m2))
      standalonePsn :=
        hasPsnKeyword ((eC.take p).drop (p - 10)) && !afterDashCoord (eC.drop e) }

/-- All scan items of an E) section, in match order. -/
def extractItems (eC : List Char) : List ScanItem :=
  (coordMatchesFrom 0 0 eC).map (mkScanItem eC)

/-! ## Classification loop (script.js lines 295–364) -/

/-- The mutable state of the coordinate scan: emitted groups, working
sequence, its ~1 m keys, the ~111 m keys of closed groups, and the
`groupClosed` flag. -/
structure ScanState where
  groups : List (List Coord)
  cur : List Coord
  seen : List ((Bool × ℤ) × (Bool × ℤ))
  closedSet : List ((Bool × ℤ) × (Bool × ℤ))
  groupClosed : Bool
deriving Repr

/-- The coordinate object pushed for an E)-section match
(script.js lines 313–318 and 350–355). -/
def mkPsnCoord (coordStr : List Char) (lat lon : ℚ) : Coord :=
  { original := String.mk (trimChars coordStr)
    lat := lat
    lon := lon
    radius := none
    ctype := CoordType.psn }

/-- One iteration of the `while` loop body (script.js lines 300–357). -/
def scanStep (startIdx : ℕ) (st : ScanState) (it : ScanItem) : ScanState :=
  match it.dec with
  | none => st
  | some (lat, lon) =>
    if it.standalonePsn then
      { st with groups := st.groups ++ [[mkPsnCoord it.coordStr lat lon]] }
    else if it.index < startIdx then st
    else if posKey3 lat lon ∈ st.closedSet then st
    else if posKey6 lat lon ∈ st.seen then
      if st.groupClosed = false ∧ st.cur ≠ [] then
        { groups := st.groups ++ [st.cur]
          cur := []
          seen := []
          closedSet := st.closedSet ++ st.cur.map (fun c => posKey3 c.lat c.lon)
          groupClosed := true }
      else st
    else
      { st with
          cur := st.cur ++ [mkPsnCoord it.coordStr lat lon]
          seen := st.seen ++ [posKey6 lat lon]
          groupClosed := false }

/-- The whole scan: fold the loop body over the matches, then flush the
remaining working sequence (script.js lines 361–364). -/
def classifyScan (startIdx : ℕ) (items : List ScanItem) : List (List Coord) :=
  let st := items.foldl (scanStep startIdx) ⟨[], [], [], [], false⟩
  st.groups ++ (if st.cur = [] then [] else [st.cur])

/-- The ~1 m key of a scan item's decoded coordinate. -/
def itemKey6 (it : ScanItem) : Option ((Bool × ℤ) × (Bool × ℤ)) :=
  it.dec.map (fun p => posKey6 p.1 p.2)

/-- The coordinate object a scan item would contribute. -/
def itemCoordOf (it : ScanItem) : Option Coord :=
  it.dec.map (fun p => mkPsnCoord it.coordStr p.1 p.2)

/-! ## Qualifier-line fallback (script.js lines 370–390,
regex `Q\).*?(\d{4}[NS]\d{5}[EW](?:\d{3})?)` with flags `gi`) -/

/-- The capture group anchored at the current position; the optional
3-digit radius is taken greedily when available (nothing anchors the
match end).  Returns the capture and the rest after it. -/
def qualCapAt (s : List Char) : Option (List Char × List Char) :=
  match takeExact isDigit 4 s with
  | none => none
  | some (d1, r1) =>
    match r1 with
    | c1 :: r2 =>
      if ciEq c1 'N' || ciEq c1 'S' then
        match takeExact isDigit 5 r2 with
        | none => none
        | some (d2, r3) =>
          match r3 with
          | c2 :: r4 =>
            if ciEq c2 'E' || ciEq c2 'W' then
              match takeExact isDigit 3 r4 with
              | some (d3, r5) => some (d1 ++ c1 :: d2 ++ c2 :: d3, r5)
              | none => some (d1 ++ c1 :: d2 ++ [c2], r4)
            else none
          | [] => none
      else none
    | [] => none

/-- The lazy `.*?` walk after `Q)`: the dot does not cross line
terminators, so the capture must start on the same line. -/
def qualLineScan : List Char → Option (List Char × List Char)
  | [] => none
  | s@(c :: rest) =>
    match qualCapAt s with
    | some (cap, r) => some (cap, r)
    | none => if c = '\n' || c = '\r' then none else qualLineScan rest

/-- The `content.matchAll` loop: every captured qualifier coordinate
string, in match order. -/
def qualMatchesFrom : ℕ → List Char → List (List Char)
  | _, [] => []
  | skip, s@(c :: rest) =>
    if skip = 0 then
      if ciEq c 'Q' then
        match rest with
        | ')' :: r2 =>
          match qualLineScan r2 with
          | some (cap, r) => cap :: qualMatchesFrom (s.length - r.length - 1) rest
          | none => qualMatchesFrom 0 rest
        | _ => qualMatchesFrom 0 rest
      else qualMatchesFrom 0 rest
    else qualMatchesFrom (skip - 1) rest

/-- The qualifier fallback group (script.js lines 371–386): decode every
captured string, keep the successes as `qualifierLine` coordinates. -/
def qualifierGroup (content : List Char) : List Coord :=
  (qualMatchesFrom 0 content).filterMap (fun cap =>
    (parseQualifierLineCoordinate (String.mk cap)).map (fun q =>
      { original := String.mk cap
        lat := q.1
        lon := q.2.1
        radius := q.2.2
        ctype := CoordType.qualifierLine }))

/-! ## ICAO codes (script.js lines 393–394,
regex `A\)\s*([A-Z]{4}(?:\s+[A-Z]{4})*)` with flag `i`) -/

/-- Exactly four letters. -/
def take4Letters : List Char → Option (List Char × List Char)
  | a :: b :: c :: d :: rest =>
    if isLetter a && isLetter b && isLetter c && isLetter d then
      some ([a, b, c, d], rest)
    else none
  | _ => none

/-- The greedy `(?:\s+[A-Z]{4})*` continuation, one character at a time:
`acc` holds the letters of the current word (fewer than 4), `wsSeen`
records whether the iteration's `\s+` has started; an iteration that
cannot complete contributes nothing and ends the star. -/
def icaoStar (acc : List Char) (wsSeen : Bool) : List Char → List (List Char)
  | [] => []
  | c :: rest =>
    if acc.length = 0 then
      if isWs c then icaoStar [] true rest
      else if wsSeen && isLetter c then icaoStar [c] true rest
      else []
    else
      if isLetter c then
        if acc.length = 3 then (acc ++ [c]) :: icaoStar [] false rest
        else icaoStar (acc ++ [c]) wsSeen rest
      else []

/-- The capture after an `A)` marker: `\s*` then at least one 4-letter
word, then further whitespace-separated 4-letter words. -/
def icaoWordsAfter (s : List Char) : Option (List (List Char)) :=
  match take4Letters (s.drop (runLen isWs s)) with
  | some (w1, r1) => some (w1 :: icaoStar [] false r1)
  | none => none

/-- Leftmost match of the ICAO-codes regex, then
`match[1].split(/\s+/)` (script.js lines 393–394). -/
def icaoCodesFrom : List Char → List String
  | [] => []
  | c :: rest =>
    if ciEq c 'A' && rest.head? = some ')' then
      match icaoWordsAfter (rest.drop 1) with
      | some ws => ws.map String.mk
      | none => icaoCodesFrom rest
    else icaoCodesFrom rest

/-! ## Polygon classification tests (script.js lines 396–424) -/

/-- `/\(\s*\d{4,7}\s*[NS]\s+\d{5,8}\s*[EW]\s*\)/i` anchored here
(no decimal fractions in this pattern). -/
def closingCoordAt (s : List Char) : Bool :=
  match s with
  | '(' :: r0 =>
    let r1 := r0.drop (runLen isWs r0)
    let k := runLen isDigit r1
    if 4 ≤ k && k ≤ 7 then
      match (r1.drop k).drop (runLen isWs (r1.drop k)) with
      | c :: r2 =>
        (ciEq c 'N' || ciEq c 'S') &&
          (1 ≤ runLen isWs r2 : Bool) &&
          (let r3 := r2.drop (runLen isWs r2)
           let k2 := runLen isDigit r3
           if 5 ≤ k2 && k2 ≤ 8 then
             match (r3.drop k2).drop (runLen isWs (r3.drop k2)) with
             | c2 :: r4 =>
               (ciEq c2 'E' || ciEq c2 'W') &&
                 ((r4.drop (runLen isWs r4)).head? = some ')' : Bool)
             | [] => false
           else false)
      | [] => false
    else false
  | _ => false

/-- `.test` of the closing-coordinate pattern. -/
def hasClosingCoord : List Char → Bool
  | [] => false
  | s@(_ :: rest) => closingCoordAt s || hasClosingCoord rest

/-- One dash-free coordinate of the dash-connected pattern:
`\d{4,7}[NS]\s+\d{5,8}[EW]` (directions immediately after the digits). -/
def plainCoordAt (s : List Char) : Option (List Char) :=
  let k := runLen isDigit s
  if 4 ≤ k && k ≤ 7 then
    match s.drop k with
    | c :: r1 =>
      if ciEq c 'N' || ciEq c 'S' then
        if 1 ≤ runLen isWs r1 then
          let r2 := r1.drop (runLen isWs r1)
          let k2 := runLen isDigit r2
          if 5 ≤ k2 && k2 ≤ 8 then
            match r2.drop k2 with
            | c2 :: r3 => if ciEq c2 'E' || ciEq c2 'W' then some r3 else none
            | [] => none
          else none
        else none
      else none
    | [] => none
  else none

/-- `/\d{4,7}[NS]\s+\d{5,8}[EW]\s*[-]\s*\d{4,7}[NS]\s+\d{5,8}[EW]/i`
anchored here. -/
def dashPairAt (s : List Char) : Bool :=
  match plainCoordAt s with
  | none => false
  | some r1 =>
    match (r1.drop (runLen isWs r1)) with
    | '-' :: r2 => (plainCoordAt (r2.drop (runLen isWs r2))).isSome
    | _ => false

/-- `.test` of the dash-connected pattern (script.js line 410). -/
def hasDashConnectedCoords : List Char → Bool
  | [] => false
  | s@(_ :: rest) => dashPairAt s || hasDashConnectedCoords rest

/-- First-equals-last test, 0.001° on each axis (script.js lines 413–416):
`|first.lat − last.lat| < 0.001 && |first.lon − last.lon| < 0.001`. -/
def closedFirstLast (g : List Coord) : Bool :=
  match g.head?, g.getLast? with
  | some f, some l =>
    (qabs (qsub f.lat l.lat) < mkRat 1 1000 : Bool) &&
      (qabs (qsub f.lon l.lon) < mkRat 1 1000 : Bool)
  | _, _ => false

/-- The polygon decision for one group (script.js lines 399–423);
`eContent` is truthy exactly when the E) section matched (its capture is
never the empty string). -/
def isPolygonFor (eOpt : Option (List Char)) (g : List Coord) : Bool :=
  match eOpt with
  | none => false
  | some eC =>
    if 3 ≤ g.length then
      hasAreaKeywords eC || hasClosingCoord eC ||
        (hasDashConnectedCoords eC && 4 ≤ g.length) || closedFirstLast g
    else false

/-! ## Per-notice pipeline (script.js lines 256–433) -/

/-- The coordinate groups extracted from the E) section: nothing without
an E) section or without a PSN / CENTRED ON / area trigger
(script.js lines 267–364). -/
def noticeEGroups (content : List Char) : List (List Coord) :=
  match eSection content with
  | none => []
  | some eC =>
    if hasPsnKeyword eC || hasCentredOn eC || hasAreaKeywords eC then
      classifyScan (extractionStartIndex eC) (extractItems eC)
    else []

/-- All coordinate groups of a notice: the E)-section groups, else the
qualifier-line fallback group when it is non-empty
(script.js lines 361–390). -/
def noticeGroups (content : List Char) : List (List Coord) :=
  match noticeEGroups content with
  | [] =>
    match qualifierGroup content with
    | [] => []
    | q => [q]
  | gs => gs

/-- One NOTAM entry per coordinate group (script.js lines 396–433). -/
def processNotice (id : String) (seg : List Char) : List NotamRecord :=
  let content := noticeContent seg
  (noticeGroups content).map (fun g =>
    { id := id
      fullContent := cleanNotamContent content
      coordinates := g
      icaoCodes := icaoCodesFrom content
      isPolygon := isPolygonFor (eSection content) g })

/-! ## Notice segmentation (script.js lines 236–254)

`text.split(notamPattern)` where
`notamPattern = (?:^|\n)\s*((?:[A-Z]{4}[\s-])?[A-Z]\d+\/\d+)\s*(?:NOTAM[NRC]?)?`
with flags `gi`; the split interleaves the captured ids with the text
between matches, and the loop pairs each id with the following chunk. -/

/-- The id core `[A-Z]\d+\/\d+`. -/
def matchIdCore (s : List Char) : Option (List Char × List Char) :=
  match s with
  | c :: r1 =>
    if isLetter c then
      if runLen isDigit r1 = 0 then none
      else
        match r1.drop (runLen isDigit r1) with
        | '/' :: r2 =>
          if runLen isDigit r2 = 0 then none
          else
            some (c :: r1.take (runLen isDigit r1) ++ '/' :: r2.take (runLen isDigit r2),
              r2.drop (runLen isDigit r2))
        | _ => none
    else none
  | [] => none

/-- `\s*(?:NOTAM[NRC]?)?` after the id: consumed by the match but not
captured. -/
def afterIdSuffix (s : List Char) : List Char :=
  match ciStrip ['N', 'O', 'T', 'A', 'M'] (s.drop (runLen isWs s)) with
  | some r2 =>
    match r2 with
    | c :: r3 => if ciEq c 'N' || ciEq c 'R' || ciEq c 'C' then r3 else r2
    | [] => r2
  | none => s.drop (runLen isWs s)

/-- The match attempt at an anchor (position 0 or just after a `\n`):
`\s*` then the optional 4-letter prefix with its `[\s-]` separator, then
the id core, then the suffix.  Returns the captured id and the rest of
the text after the whole match. -/
def matchIdAt (s : List Char) : Option (List Char × List Char) :=
  match s.drop (runLen isWs s) with
  | a :: b :: c :: d :: e :: r1 =>
    if isLetter a && isLetter b && isLetter c && isLetter d && (isWs e || e = '-') then
      match matchIdCore r1 with
      | some (core, rest) => some ([a, b, c, d, e] ++ core, afterIdSuffix rest)
      | none =>
        match matchIdCore (a :: b :: c :: d :: e :: r1) with
        | some (core, rest) => some (core, afterIdSuffix rest)
        | none => none
    else
      match matchIdCore (a :: b :: c :: d :: e :: r1) with
      | some (core, rest) => some (core, afterIdSuffix rest)
      | none => none
  | r0 =>
    match matchIdCore r0 with
    | some (core, rest) => some (core, afterIdSuffix rest)
    | none => none

/-- Prepend a character to the chunk of the first pending pair. -/
def consHead (c : Char) : List (List Char × List Char) → List (List Char × List Char)
  | [] => []
  | (id, seg) :: ps => (id, c :: seg) :: ps

/-- Walk the text after a match, accumulating the current id's chunk;
a `\n` at or after the previous match's end may anchor the next match,
whose consumed characters (`skip` of them beyond the `\n`) belong to no
chunk. -/
def pairsLoop (pid : List Char) : ℕ → List Char → List (List Char × List Char)
  | _, [] => [(pid, [])]
  | skip, c :: rest =>
    if skip = 0 then
      if c = '\n' then
        match matchIdAt rest with
        | some (idCap, after) =>
          (pid, []) :: pairsLoop idCap (rest.length - after.length) rest
        | none => consHead c (pairsLoop pid 0 rest)
      else consHead c (pairsLoop pid 0 rest)
    else pairsLoop pid (skip - 1) rest

/-- Text before the first match, when the first match is not at
position 0. -/
def preScan : List Char → List Char × List (List Char × List Char)
  | [] => ([], [])
  | c :: rest =>
    if c = '\n' then
      match matchIdAt rest with
      | some (idCap, after) => ([], pairsLoop idCap (rest.length - after.length) rest)
      | none =>
        match preScan rest with
        | (pre, ps) => (c :: pre, ps)
    else
      match preScan rest with
      | (pre, ps) => (c :: pre, ps)

/-- `text.split(notamPattern)` paired up as the parse loop does:
the text before the first id, then `(id, following chunk)` pairs. -/
def splitNotam (text : List Char) : List Char × List (List Char × List Char) :=
  match matchIdAt text with
  | some (idCap, after) => ([], pairsLoop idCap (text.length - after.length) text)
  | none => preScan text

/-- `parts[i].replace(/\s*NOTAM[NRC]?\s*$/i, '')` (script.js line 245):
drop the suffix at the earliest position where `\s*NOTAM[NRC]?\s*`
reaches the end of the string. -/
def stripSuffixAt (s : List Char) : Bool :=
  match ciStrip ['N', 'O', 'T', 'A', 'M'] (s.drop (runLen isWs s)) with
  | some r2 =>
    (match r2 with
     | c :: r3 =>
       if ciEq c 'N' || ciEq c 'R' || ciEq c 'C' then r3.dropWhile isWs = []
       else r2.dropWhile isWs = []
     | [] => true)
  | none => false

/-- Find the earliest suffix start; returns the kept prefix. -/
def stripIdSuffix : List Char → List Char
  | [] => []
  | s@(c :: rest) =>
    if stripSuffixAt s then [] else c :: stripIdSuffix rest

/-- `.replace(...).trim()` producing the final notice id. -/
def stripTrimId (rid : List Char) : String :=
  String.mk (trimChars (stripIdSuffix rid))

/-! ## Top level (script.js lines 232–437) -/

/-- The per-notice loop with its `seenIds` first-occurrence filter. -/
def parseNotamsAux : List (List Char × List Char) → List String → List NotamRecord
  | [], _ => []
  | (rid, seg) :: rest, seen =>
    if stripTrimId rid ∈ seen then parseNotamsAux rest seen
    else processNotice (stripTrimId rid) seg ++ parseNotamsAux rest (stripTrimId rid :: seen)

/-- `parseNotams` (script.js lines 232–437). -/
def parseNotams (text : String) : List NotamRecord :=
  parseNotamsAux (splitNotam text.data).2 []

/-! ## computePolygonArea (script.js lines 452–461) -/

/-- One shoelace term for the edge from `a` to `b`:
`a.lat * b.lon − b.lat * a.lon`. -/
def shoelaceTerm (a b : Coord) : ℚ :=
  qsub (qmul a.lat b.lon) (qmul b.lat a.lon)

/-- Sum of shoelace terms over consecutive pairs, wrapping to `first`
(the `j = (i + 1) % n` indexing of the source loop). -/
def shoelaceSum (first : Coord) : List Coord → ℚ
  | [] => 0
  | [a] => shoelaceTerm a first
  | a :: b :: rest => qadd (shoelaceTerm a b) (shoelaceSum first (b :: rest))

/-- `computePolygonArea`: `|Σ (lat_i·lon_j − lat_j·lon_i)| / 2`. -/
def computePolygonArea (coordinates : List Coord) : ℚ :=
  match coordinates with
  | [] => 0
  | c :: _ => qmul (qabs (shoelaceSum c coordinates)) (mkRat 1 2)

/-- Scale a vertex by `k` on both axes. -/
def scaleCoord (k : ℚ) (c : Coord) : Coord :=
  { c with lat := qmul k c.lat, lon := qmul k c.lon }

/-- A plain vertex with only its position set (the area tests of the
source pass bare `{lat, lon}` objects). -/
def mkVertex (lat lon : ℚ) : Coord :=
  { original := "", lat := lat, lon := lon, radius := none, ctype := CoordType.psn }

/-- The unit square `[(0,0),(1,0),(1,1),(0,1)]`. -/
def unitSquare : List Coord :=
  [mkVertex 0 0, mkVertex 1 0, mkVertex 1 1, mkVertex 0 1]

/-- The 7-digit-longitude normalization exactly as the specification
words it (the latitude-dependent middle branch), for comparison with
the source's `normalizeLon7`. -/
def specClaimNormalizeLon7 (latStr lonStr : List Char) : List Char :=
  if lonStr.head? = some '0' then lonStr ++ ['0']
  else if latStr.length = 6 ∨ latStr.contains '.' then lonStr ++ ['0']
  else '0' :: lonStr

/-- A bulletin whose single notice holds a 3-vertex area ring crossing
the antimeridian; used to instantiate the record-invariant theorem. -/
def c10Text : String :=
  "A1234/25 NOTAMN\nE) AREA 100000N 17900000E - 100000N 17900000W - 200000N 17900000E"

/-- The single record `parseNotams c10Text` emits. -/
def c10Rec : NotamRecord :=
  { id := "A1234/25"
    fullContent := "E) AREA 100000N 17900000E - 100000N 17900000W - 200000N 17900000E"
    coordinates :=
      [{ original := "100000N 17900000E", lat := 10, lon := 179, radius := none,
         ctype := CoordType.psn },
       { original := "100000N 17900000W", lat := 10, lon := -179, radius := none,
         ctype := CoordType.psn },
       { original := "200000N 17900000E", lat := 20, lon := 179, radius := none,
         ctype := CoordType.psn }]
    icaoCodes := []
    isPolygon := true }

/-- A bulletin whose single notice's E) section holds an area keyword
and a closed ring of 9 dash-connected coordinates (last = first). -/
def c3RingText : String :=
  "A1234/25 NOTAMN\nE) AREA 500000N 0100000E - 510000N 0100000E - 520000N 0100000E - 530000N 0100000E - 540000N 0100000E - 550000N 0100000E - 560000N 0100000E - 570000N 0100000E - 500000N 0100000E"

/-- The notice chunk segmented out of `c3RingText`. -/
def c3Seg : List Char :=
  "\nE) AREA 500000N 0100000E - 510000N 0100000E - 520000N 0100000E - 530000N 0100000E - 540000N 0100000E - 550000N 0100000E - 560000N 0100000E - 570000N 0100000E - 500000N 0100000E".data

/-- The E) section of `c3Seg`. -/
def c3EC : List Char :=
  " AREA 500000N 0100000E - 510000N 0100000E - 520000N 0100000E - 530000N 0100000E - 540000N 0100000E - 550000N 0100000E - 560000N 0100000E - 570000N 0100000E - 500000N 0100000E".data

/-- The nine scan items of `c3EC` (computed values of `extractItems`). -/
def c3i1 : ScanItem := ⟨6, 22, "500000N 0100000E".data, some (50, 10), false⟩

def c3i2 : ScanItem := ⟨25, 41, "510000N 0100000E".data, some (51, 10), false⟩

def c3i3 : ScanItem := ⟨44, 60, "520000N 0100000E".data, some (52, 10), false⟩

def c3i4 : ScanItem := ⟨63, 79, "530000N 0100000E".data, some (53, 10), false⟩

def c3i5 : ScanItem := ⟨82, 98, "540000N 0100000E".data, some (54, 10), false⟩

def c3i6 : ScanItem := ⟨101, 117, "550000N 0100000E".data, some (55, 10), false⟩

def c3i7 : ScanItem := ⟨120, 136, "560000N 0100000E".data, some (56, 10), false⟩

def c3i8 : ScanItem := ⟨139, 155, "570000N 0100000E".data, some (57, 10), false⟩

def c3i9 : ScanItem := ⟨158, 174, "500000N 0100000E".data, some (50, 10), false⟩

/-! # Theorems -/

/-- `qadd` agrees with rational addition. -/
theorem qadd_eq (a b : ℚ) : qadd a b = a + b := by
  unfold qadd
  have ha : (a.den : ℚ) ≠ 0 := Nat.cast_ne_zero.mpr a.den_nz
  have hb : (b.den : ℚ) ≠ 0 := Nat.cast_ne_zero.mpr b.den_nz
  rw [Rat.mkRat_eq_div]
  push_cast
  conv_rhs => rw [← Rat.num_div_den a, ← Rat.num_div_den b, div_add_div _ _ ha hb]
  congr 1
  ring

/-- `qmul` agrees with rational multiplication. -/
theorem qmul_eq (a b : ℚ) : qmul a b = a * b := by
  unfold qmul
  rw [Rat.mkRat_eq_div]
  push_cast
  rw [← div_mul_div_comm, Rat.num_div_den, Rat.num_div_den]

/-- `qneg` agrees with rational negation. -/
theorem qneg_eq (a : ℚ) : qneg a = -a := by
  unfold qneg
  rw [Rat.mkRat_eq_div]
  push_cast
  rw [neg_div, Rat.num_div_den]

/-- `qsub` agrees with rational subtraction. -/
theorem qsub_eq (a b : ℚ) : qsub a b = a - b := by
  unfold qsub
  rw [qadd_eq, qneg_eq, sub_eq_add_neg]

/-- `qabs` agrees with the rational absolute value. -/
theorem qabs_eq (a : ℚ) : qabs a = |a| := by
  unfold qabs
  rw [show Int.ofNat a.num.natAbs = |a.num| from (Int.abs_eq_natAbs a.num).symm]
  rcases le_or_lt 0 a with h | h
  · rw [abs_of_nonneg h, abs_of_nonneg (Rat.num_nonneg.mpr h), Rat.mkRat_self]
  · have hnum : a.num < 0 := by
      by_contra hc
      exact absurd (Rat.num_nonneg.mp (le_of_not_lt hc)) (not_le.mpr h)
    rw [abs_of_neg h, abs_of_neg hnum]
    exact qneg_eq a

/-- `toFixedKey` is the sign together with the half-up rounding of
`|x|` to `f` decimal places. -/
theorem toFixedKey_eq (x : ℚ) (f : ℕ) :
    toFixedKey x f = (decide (x < 0), ⌊|x| * (10 : ℚ) ^ f + 1 / 2⌋) := by
  unfold toFixedKey
  rw [qadd_eq, qmul_eq, qabs_eq, Rat.mkRat_eq_div, Rat.mkRat_eq_div]
  push_cast
  norm_num

/-- An 8-character token is left unchanged by the 7-digit normalization. -/
theorem normalizeLon7_of_len8 {l : List Char} (h : l.length = 8) :
    normalizeLon7 l = l := by
  unfold normalizeLon7
  rw [h]
  simp

/-- C1 (counterexample): on `"484024N 1420211E"` the latitude token has 6
digits, so the claim mandates appending a trailing `0` (longitude
`142°02'11" = 511331/3600 ≈ 142.036`), but the code prepends a leading
`0` and decodes `014°20'21.1" = 516211/36000 ≈ 14.339`. -/
theorem c1_counterexample :
    specClaimNormalizeLon7 "484024".data "1420211".data ≠ normalizeLon7 "1420211".data ∧
    parseDMSCoordinate "484024N 1420211E" = some (mkRat 175224 3600, mkRat 516211 36000) ∧
    dmsLonVal (specClaimNormalizeLon7 "484024".data "1420211".data) 'E' = mkRat 511331 3600 ∧
    mkRat 516211 36000 ≠ mkRat 511331 3600 := by
  refine ⟨by decide, by decide, by decide, by decide⟩

/-- C1 (amended): for a 7-digit non-decimal longitude token the code
appends a trailing `0` exactly when the token starts with `0` and
otherwise prepends a leading `0`, independently of the paired latitude
token: the decoded longitude equals the positional decode of that
normalized token under any latitude token. -/
theorem c1_longitude_normalization (la la' : List Char) (ld ld' : Option Char)
    (lo : List Char) (od : Option Char)
    (h7 : lo.length = 7) (hdot : lo.contains '.' = false) :
    (dmsFromParts la ld lo od).2 =
      (dmsFromParts la' ld'
        (if lo.head? = some '0' then lo ++ ['0'] else '0' :: lo) od).2 := by
  show dmsLonVal lo (od.getD 'E') = dmsLonVal _ (od.getD 'E')
  have hnorm : normalizeLon7 lo =
      if lo.head? = some '0' then lo ++ ['0'] else '0' :: lo := by
    unfold normalizeLon7
    rw [h7, hdot]
    simp
  have hlen8 : (if lo.head? = some '0' then lo ++ ['0'] else '0' :: lo).length = 8 := by
    split <;> simp [h7]
  unfold dmsLonVal
  rw [hnorm, normalizeLon7_of_len8 hlen8]

/-- C1 (witness for the amended theorem) at the token `"1420211"`. -/
theorem c1_longitude_normalization_witness :
    (dmsFromParts "484024".data (some 'N') "1420211".data (some 'E')).2 =
      (dmsFromParts "999999".data none
        (if "1420211".data.head? = some '0' then "1420211".data ++ ['0']
         else '0' :: "1420211".data) (some 'E')).2 :=
  c1_longitude_normalization "484024".data "999999".data (some 'N') none
    "1420211".data (some 'E') (by decide) (by decide)

/-- C2: the three documented decodings of `parseDMSCoordinate`, each
within 0.01° of the specified values. -/
theorem c2_dms_examples :
    (∃ lat lon, parseDMSCoordinate "484024N 0030441E" = some (lat, lon) ∧
      |lat - 48.6733| < 1 / 100 ∧ |lon - 3.0781| < 1 / 100) ∧
    (∃ lat lon, parseDMSCoordinate "161514N0611540W" = some (lat, lon) ∧
      |lat - 16.2539| < 1 / 100 ∧ |lon - (-61.2611)| < 1 / 100) ∧
    (∃ lat lon, parseDMSCoordinate "4908325N 0004328W" = some (lat, lon) ∧
      |lat - 49.1424| < 1 / 100 ∧ |lon - (-0.7244)| < 1 / 100) := by
  refine ⟨⟨mkRat 175224 3600, mkRat 11081 3600, by decide, ?_, ?_⟩,
    ⟨mkRat 58514 3600, mkRat (-220540) 3600, by decide, ?_, ?_⟩,
    ⟨mkRat 1769125 36000, mkRat (-26080) 36000, by decide, ?_, ?_⟩⟩ <;>
    (rw [Rat.mkRat_eq_div, abs_lt]; constructor <;> norm_num)

/-- Scaling every vertex by `k` multiplies every shoelace partial sum by
`k²`. -/
theorem shoelaceSum_smul (k : ℚ) (f : Coord) (cs : List Coord) :
    shoelaceSum (scaleCoord k f) (cs.map (scaleCoord k)) = k ^ 2 * shoelaceSum f cs := by
  induction cs with
  | nil => simp [shoelaceSum]
  | cons a tail ih =>
    cases tail with
    | nil =>
      simp only [List.map_cons, List.map_nil, shoelaceSum, shoelaceTerm, scaleCoord,
        qsub_eq, qmul_eq]
      ring
    | cons b rest =>
      simp only [List.map_cons, shoelaceSum, qadd_eq] at ih ⊢
      rw [ih]
      simp only [shoelaceTerm, scaleCoord, qsub_eq, qmul_eq]
      ring

/-- C8: the shoelace area of the unit square is exactly 1, and scaling
every vertex by `k` multiplies the area by `k²`. -/
theorem c8_shoelace_area :
    computePolygonArea unitSquare = 1 ∧
    ∀ (cs : List Coord) (k : ℚ),
      computePolygonArea (cs.map (scaleCoord k)) = k ^ 2 * computePolygonArea cs := by
  constructor
  · decide
  · intro cs k
    cases cs with
    | nil => simp [computePolygonArea]
    | cons c tail =>
      have h := shoelaceSum_smul k c (c :: tail)
      simp only [List.map_cons, computePolygonArea, qmul_eq, qabs_eq] at h ⊢
      rw [h, abs_mul, abs_of_nonneg (by positivity : (0 : ℚ) ≤ k ^ 2)]
      ring

/-- C9: `parseNotams` is a pure function of its input text: repeated
calls are structurally equal, and in any sequence of calls each result
depends only on its own input (all accumulators of the source are local
to one call). -/
theorem c9_deterministic_stateless :
    (∀ text : String, parseNotams text = parseNotams text) ∧
    (∀ (pre post : List String) (text : String),
      (pre ++ text :: post).map parseNotams =
        pre.map parseNotams ++ parseNotams text :: post.map parseNotams) :=
  ⟨fun _ => rfl, fun pre post text => by simp⟩

/-- `mkRat` of naturals is nonnegative. -/
theorem mkRat_nat_nonneg (n d : ℕ) : (0 : ℚ) ≤ mkRat (n : ℤ) d := by
  rw [Rat.mkRat_eq_div]
  positivity

/-- The fractional part of `parseFloat` is nonnegative. -/
theorem parseFracPart_nonneg (s : List Char) : 0 ≤ parseFracPart s := by
  unfold parseFracPart
  split
  · exact mkRat_nat_nonneg _ _
  · exact le_refl 0

/-- `parseFloat` of a digit string is nonnegative. -/
theorem parseDecimal_nonneg (s : List Char) : 0 ≤ parseDecimal s := by
  unfold parseDecimal
  rw [qadd_eq]
  have h1 := mkRat_nat_nonneg (parseIntLead (s.takeWhile isDigit)) 1
  have h2 := parseFracPart_nonneg (s.dropWhile isDigit)
  linarith

/-- The latitude-seconds field is nonnegative. -/
theorem dmsLatSec_nonneg (latStr : List Char) : 0 ≤ dmsLatSec latStr := by
  unfold dmsLatSec
  split
  · exact parseDecimal_nonneg _
  · split
    · exact parseDecimal_nonneg _
    · exact parseDecimal_nonneg _

/-- The longitude-seconds field is nonnegative. -/
theorem dmsLonSec_nonneg (lonStr : List Char) : 0 ≤ dmsLonSec lonStr := by
  unfold dmsLonSec
  split
  · exact parseDecimal_nonneg _
  · split
    · exact parseDecimal_nonneg _
    · exact parseDecimal_nonneg _

/-- Conventional digit fields keep the decoded latitude in `[-90, 90]`. -/
theorem dmsLatVal_bounds (latStr : List Char) (latDir : Char)
    (h1 : parseIntLead (latStr.take 2) ≤ 89)
    (h2 : parseIntLead ((latStr.drop 2).take 2) ≤ 59)
    (h3 : dmsLatSec latStr ≤ 60) :
    |dmsLatVal latStr latDir| ≤ 90 := by
  have hs0 := dmsLatSec_nonneg latStr
  have c1 : (parseIntLead (latStr.take 2) : ℚ) ≤ 89 := by exact_mod_cast h1
  have c2 : (parseIntLead ((latStr.drop 2).take 2) : ℚ) ≤ 59 := by exact_mod_cast h2
  have c1' : (0 : ℚ) ≤ (parseIntLead (latStr.take 2) : ℚ) := by positivity
  have c2' : (0 : ℚ) ≤ (parseIntLead ((latStr.drop 2).take 2) : ℚ) := by positivity
  have e1 : qadd (qadd (mkRat (parseIntLead (latStr.take 2)) 1)
      (mkRat (parseIntLead ((latStr.drop 2).take 2)) 60))
      (qmul (dmsLatSec latStr) (mkRat 1 3600)) =
      (parseIntLead (latStr.take 2) : ℚ) +
        (parseIntLead ((latStr.drop 2).take 2) : ℚ) / 60 +
        dmsLatSec latStr * (1 / 3600) := by
    rw [qadd_eq, qadd_eq, qmul_eq, Rat.mkRat_eq_div, Rat.mkRat_eq_div, Rat.mkRat_eq_div]
    push_cast
    ring
  unfold dmsLatVal
  dsimp only
  split
  · rw [qneg_eq, abs_neg, e1, abs_le]
    constructor <;> linarith
  · rw [e1, abs_le]
    constructor <;> linarith

/-- Conventional digit fields keep the decoded longitude in `[-180, 180]`
(stated about the normalized token, which is what the code decodes). -/
theorem dmsLonVal_bounds (lonStr : List Char) (lonDir : Char)
    (h1 : parseIntLead ((normalizeLon7 lonStr).take 3) ≤ 179)
    (h2 : parseIntLead (((normalizeLon7 lonStr).drop 3).take 2) ≤ 59)
    (h3 : dmsLonSec (normalizeLon7 lonStr) ≤ 60) :
    |dmsLonVal lonStr lonDir| ≤ 180 := by
  have hs0 := dmsLonSec_nonneg (normalizeLon7 lonStr)
  have c1 : (parseIntLead ((normalizeLon7 lonStr).take 3) : ℚ) ≤ 179 := by exact_mod_cast h1
  have c2 : (parseIntLead (((normalizeLon7 lonStr).drop 3).take 2) : ℚ) ≤ 59 := by
    exact_mod_cast h2
  have c1' : (0 : ℚ) ≤ (parseIntLead ((normalizeLon7 lonStr).take 3) : ℚ) := by positivity
  have c2' : (0 : ℚ) ≤ (parseIntLead (((normalizeLon7 lonStr).drop 3).take 2) : ℚ) := by
    positivity
  have e1 : qadd (qadd (mkRat (parseIntLead ((normalizeLon7 lonStr).take 3)) 1)
      (mkRat (parseIntLead (((normalizeLon7 lonStr).drop 3).take 2)) 60))
      (qmul (dmsLonSec (normalizeLon7 lonStr)) (mkRat 1 3600)) =
      (parseIntLead ((normalizeLon7 lonStr).take 3) : ℚ) +
        (parseIntLead (((normalizeLon7 lonStr).drop 3).take 2) : ℚ) / 60 +
        dmsLonSec (normalizeLon7 lonStr) * (1 / 3600) := by
    rw [qadd_eq, qadd_eq, qmul_eq, Rat.mkRat_eq_div, Rat.mkRat_eq_div, Rat.mkRat_eq_div]
    push_cast
    ring
  unfold dmsLonVal
  dsimp only
  split
  · rw [qneg_eq, abs_neg, e1, abs_le]
    constructor <;> linarith
  · rw [e1, abs_le]
    constructor <;> linarith

/-- Conventional digit fields keep the qualifier-line decode in range. -/
theorem qualifierFromParts_bounds (latS lonS : List Char) (latDir lonDir : Char)
    (rad : Option (List Char))
    (h1 : parseIntLead (latS.take 2) ≤ 89) (h2 : parseIntLead (latS.drop 2) ≤ 59)
    (h3 : parseIntLead (lonS.take 3) ≤ 179) (h4 : parseIntLead (lonS.drop 3) ≤ 59) :
    |(qualifierFromParts latS latDir lonS lonDir rad).1| ≤ 90 ∧
    |(qualifierFromParts latS latDir lonS lonDir rad).2.1| ≤ 180 := by
  have c1 : (parseIntLead (latS.take 2) : ℚ) ≤ 89 := by exact_mod_cast h1
  have c2 : (parseIntLead (latS.drop 2) : ℚ) ≤ 59 := by exact_mod_cast h2
  have c3 : (parseIntLead (lonS.take 3) : ℚ) ≤ 179 := by exact_mod_cast h3
  have c4 : (parseIntLead (lonS.drop 3) : ℚ) ≤ 59 := by exact_mod_cast h4
  have c1' : (0 : ℚ) ≤ (parseIntLead (latS.take 2) : ℚ) := by positivity
  have c2' : (0 : ℚ) ≤ (parseIntLead (latS.drop 2) : ℚ) := by positivity
  have c3' : (0 : ℚ) ≤ (parseIntLead (lonS.take 3) : ℚ) := by positivity
  have c4' : (0 : ℚ) ≤ (parseIntLead (lonS.drop 3) : ℚ) := by positivity
  have e1 : qadd (mkRat (parseIntLead (latS.take 2)) 1) (mkRat (parseIntLead (latS.drop 2)) 60) =
      (parseIntLead (latS.take 2) : ℚ) + (parseIntLead (latS.drop 2) : ℚ) / 60 := by
    rw [qadd_eq, Rat.mkRat_eq_div, Rat.mkRat_eq_div]
    push_cast
    ring
  have e2 : qadd (mkRat (parseIntLead (lonS.take 3)) 1) (mkRat (parseIntLead (lonS.drop 3)) 60) =
      (parseIntLead (lonS.take 3) : ℚ) + (parseIntLead (lonS.drop 3) : ℚ) / 60 := by
    rw [qadd_eq, Rat.mkRat_eq_div, Rat.mkRat_eq_div]
    push_cast
    ring
  unfold qualifierFromParts
  dsimp only
  constructor
  · split
    · rw [qneg_eq, abs_neg, e1, abs_le]
      constructor <;> linarith
    · rw [e1, abs_le]
      constructor <;> linarith
  · split
    · rw [qneg_eq, abs_neg, e2, abs_le]
      constructor <;> linarith
    · rw [e2, abs_le]
      constructor <;> linarith

/-- C7 (amended): a decoded coordinate lies in `[-90, 90] × [-180, 180]`
provided the matched digit fields are conventional (degrees at most
89 / 179, minutes at most 59, seconds at most 60); the decoders accept
unconventional digit fields and then produce out-of-range values. -/
theorem c7_range_amended :
    (∀ (s : String) (latS : List Char) (latDir : Char) (lonS : List Char) (lonDir : Char)
        (rad : Option (List Char)),
      matchQualifier s.data = some (latS, latDir, lonS, lonDir, rad) →
      parseIntLead (latS.take 2) ≤ 89 → parseIntLead (latS.drop 2) ≤ 59 →
      parseIntLead (lonS.take 3) ≤ 179 → parseIntLead (lonS.drop 3) ≤ 59 →
      ∃ lat lon r, parseQualifierLineCoordinate s = some (lat, lon, r) ∧
        |lat| ≤ 90 ∧ |lon| ≤ 180) ∧
    (∀ (s : String) (la : List Char) (ld : Option Char) (lo : List Char) (od : Option Char),
      matchDMS (trimChars s.data) = some (la, ld, lo, od) →
      parseIntLead (la.take 2) ≤ 89 → parseIntLead ((la.drop 2).take 2) ≤ 59 →
      dmsLatSec la ≤ 60 →
      parseIntLead ((normalizeLon7 lo).take 3) ≤ 179 →
      parseIntLead (((normalizeLon7 lo).drop 3).take 2) ≤ 59 →
      dmsLonSec (normalizeLon7 lo) ≤ 60 →
      ∃ lat lon, parseDMSCoordinate s = some (lat, lon) ∧ |lat| ≤ 90 ∧ |lon| ≤ 180) := by
  constructor
  · intro s latS latDir lonS lonDir rad hm h1 h2 h3 h4
    obtain ⟨hlat, hlon⟩ := qualifierFromParts_bounds latS lonS latDir lonDir rad h1 h2 h3 h4
    refine ⟨(qualifierFromParts latS latDir lonS lonDir rad).1,
      (qualifierFromParts latS latDir lonS lonDir rad).2.1,
      (qualifierFromParts latS latDir lonS lonDir rad).2.2, ?_, hlat, hlon⟩
    unfold parseQualifierLineCoordinate
    rw [hm]
    rfl
  · intro s la ld lo od hm h1 h2 h3 h4 h5 h6
    refine ⟨_, _, ?_, dmsLatVal_bounds la (ld.getD 'N') h1 h2 h3,
      dmsLonVal_bounds lo (od.getD 'E') h4 h5 h6⟩
    unfold parseDMSCoordinate
    rw [hm]
    rfl

/-- C7 (counterexample): the qualifier-line decoder accepts
`"9999N99999E"` and produces latitude `99°99' = 100.65 ∉ [-90, 90]`
(and longitude `999°99' = 1000.65 ∉ [-180, 180]`). -/
theorem c7_counterexample :
    parseQualifierLineCoordinate "9999N99999E" =
      some (mkRat 2013 20, mkRat 20013 20, none) ∧
    ¬(mkRat 2013 20 : ℚ) ≤ 90 ∧ ¬(mkRat 20013 20 : ℚ) ≤ 180 := by
  refine ⟨by decide, ?_, ?_⟩ <;> (rw [Rat.mkRat_eq_div]; norm_num)

/-- C7 (witness): both decoders applied at conventional inputs. -/
theorem c7_range_amended_witness :
    (∃ lat lon r, parseQualifierLineCoordinate "4840N00305E005" = some (lat, lon, r) ∧
      |lat| ≤ 90 ∧ |lon| ≤ 180) ∧
    (∃ lat lon, parseDMSCoordinate "484024N 0030441E" = some (lat, lon) ∧
      |lat| ≤ 90 ∧ |lon| ≤ 180) :=
  ⟨c7_range_amended.1 "4840N00305E005" "4840".data 'N' "00305".data 'E' (some "005".data)
      (by decide) (by decide) (by decide) (by decide) (by decide),
    c7_range_amended.2 "484024N 0030441E" "484024".data (some 'N') "0030441".data (some 'E')
      (by decide) (by decide) (by decide) (by decide) (by decide) (by decide) (by decide)⟩

/-- C6 (amended): the records of a notice carry the extracted coordinate
groups verbatim — no antimeridian unwrapping or any other geometric
rewriting happens between extraction and emission, so consecutive
longitude deltas can exceed 180°. -/
theorem c6_groups_emitted_verbatim :
    ∀ (id : String) (seg : List Char),
      (processNotice id seg).map (fun r => r.coordinates) =
        noticeGroups (noticeContent seg) := by
  intro id seg
  unfold processNotice
  rw [List.map_map]
  exact List.map_id _

set_option maxRecDepth 1000000 in
/-- C6 (counterexample): a bulletin whose area ring hops across the
antimeridian (longitudes 179, −179, 179) is emitted as a polygon record
with those longitudes unchanged; the consecutive delta is 358 > 180, so
no unwrapping took place. -/
theorem c6_counterexample :
    (parseNotams
        "A1234/25 NOTAMN\nE) AREA 100000N 17900000E - 100000N 17900000W - 200000N 17900000E").map
        (fun r => (r.isPolygon, r.coordinates.map (fun c => c.lon))) =
      [(true, [mkRat 179 1, mkRat (-179) 1, mkRat 179 1])] ∧
    ¬|(mkRat (-179) 1 : ℚ) - mkRat 179 1| ≤ 180 := by
  constructor
  · decide
  · rw [Rat.mkRat_eq_div, Rat.mkRat_eq_div]
    norm_num

/-- Every record of `parseNotamsAux` comes from `processNotice` on one of
the segmented pairs. -/
theorem mem_parseNotamsAux {r : NotamRecord} :
    ∀ (pairs : List (List Char × List Char)) (seen : List String),
      r ∈ parseNotamsAux pairs seen →
      ∃ p ∈ pairs, r ∈ processNotice (stripTrimId p.1) p.2 := by
  intro pairs
  induction pairs with
  | nil =>
    intro seen h
    simp [parseNotamsAux] at h
  | cons hd tl ih =>
    intro seen h
    obtain ⟨rid, seg⟩ := hd
    unfold parseNotamsAux at h
    split at h
    · obtain ⟨p, hp, hrp⟩ := ih _ h
      exact ⟨p, List.mem_cons_of_mem _ hp, hrp⟩
    · rcases List.mem_append.mp h with h1 | h2
      · exact ⟨(rid, seg), List.mem_cons_self _ _, h1⟩
      · obtain ⟨p, hp, hrp⟩ := ih _ h2
        exact ⟨p, List.mem_cons_of_mem _ hp, hrp⟩

/-- The shape of a record emitted by `processNotice`. -/
theorem mem_processNotice {r : NotamRecord} {id : String} {seg : List Char}
    (h : r ∈ processNotice id seg) :
    r.id = id ∧ ∃ g ∈ noticeGroups (noticeContent seg), r.coordinates = g ∧
      r.isPolygon = isPolygonFor (eSection (noticeContent seg)) g := by
  unfold processNotice at h
  obtain ⟨g, hg, hrg⟩ := List.mem_map.mp h
  exact ⟨by rw [← hrg], g, hg, by rw [← hrg], by rw [← hrg]⟩

/-- A `true` polygon flag forces a group of at least 3 and a matched
E) section. -/
theorem isPolygonFor_eq_true {eOpt : Option (List Char)} {g : List Coord}
    (h : isPolygonFor eOpt g = true) : 3 ≤ g.length ∧ ∃ eC, eOpt = some eC := by
  cases eOpt with
  | none => simp [isPolygonFor] at h
  | some eC =>
    simp only [isPolygonFor] at h
    split at h
    · exact ⟨by assumption, eC, rfl⟩
    · cases h

/-- Groups of fewer than 3 coordinates are never polygons. -/
theorem isPolygonFor_of_lt3 {eOpt : Option (List Char)} {g : List Coord}
    (h : g.length < 3) : isPolygonFor eOpt g = false := by
  cases eOpt with
  | none => rfl
  | some eC =>
    simp only [isPolygonFor]
    rw [if_neg (by omega)]

/-- The E)-section capture is never the empty string. -/
theorem eSectionFrom_ne_nil : ∀ {s eC : List Char}, eSectionFrom s = some eC → eC ≠ [] := by
  intro s
  induction s with
  | nil =>
    intro eC h
    simp [eSectionFrom] at h
  | cons c1 rest ih =>
    intro eC h
    cases rest with
    | nil => simp [eSectionFrom] at h
    | cons c2 rest2 =>
      unfold eSectionFrom at h
      split at h
      · split at h
        · exact ih h
        · cases h
          simp
      · exact ih h

/-- C10 (amended): a record with `isPolygon = true` has at least 3
coordinates and its notice has a non-empty E) section; and a
qualifier-line fallback record with fewer than 3 coordinates is never a
polygon (a fallback group of 3 or more coordinates can still satisfy the
polygon tests, see the counterexample). -/
theorem c10_polygon_invariants (text : String) (r : NotamRecord)
    (hr : r ∈ parseNotams text) :
    (r.isPolygon = true →
      3 ≤ r.coordinates.length ∧
      ∃ rid seg eC, (rid, seg) ∈ (splitNotam text.data).2 ∧
        r ∈ processNotice (stripTrimId rid) seg ∧
        eSection (noticeContent seg) = some eC ∧ eC ≠ []) ∧
    ((∀ c ∈ r.coordinates, c.ctype = CoordType.qualifierLine) →
      r.coordinates.length < 3 → r.isPolygon = false) := by
  obtain ⟨⟨rid, seg⟩, hp, hproc⟩ := mem_parseNotamsAux (splitNotam text.data).2 [] hr
  obtain ⟨hid, g, hg, hcoords, hpoly⟩ := mem_processNotice hproc
  constructor
  · intro hpol
    rw [hpoly] at hpol
    obtain ⟨hlen, eC, heq⟩ := isPolygonFor_eq_true hpol
    exact ⟨by rw [hcoords]; exact hlen, rid, seg, eC, hp, hproc, heq,
      eSectionFrom_ne_nil heq⟩
  · intro _ hlen
    rw [hpoly]
    exact isPolygonFor_of_lt3 (by rw [← hcoords]; exact hlen)

set_option maxRecDepth 1000000 in
/-- C10 (counterexample): three Q) lines with decodable coordinates and
an E) section that contains an area keyword but no coordinate token give
a single qualifier-line fallback record whose `isPolygon` is `true`. -/
theorem c10_counterexample :
    (parseNotams "A1234/25 NOTAMN\nQ) 4840N00305E\nQ) 4841N00305E\nQ) 4842N00305E\nE) AREA CLOSED").map
        (fun r => (r.isPolygon, r.coordinates.map (fun c => c.ctype))) =
      [(true, [CoordType.qualifierLine, CoordType.qualifierLine, CoordType.qualifierLine])] := by
  decide

set_option maxRecDepth 1000000 in
/-- C10 (witness): the invariant instantiated at the polygon record of a
concrete bulletin. -/
theorem c10_polygon_invariants_witness :
    (c10Rec.isPolygon = true →
      3 ≤ c10Rec.coordinates.length ∧
      ∃ rid seg eC, (rid, seg) ∈ (splitNotam c10Text.data).2 ∧
        c10Rec ∈ processNotice (stripTrimId rid) seg ∧
        eSection (noticeContent seg) = some eC ∧ eC ≠ []) ∧
    ((∀ c ∈ c10Rec.coordinates, c.ctype = CoordType.qualifierLine) →
      c10Rec.coordinates.length < 3 → c10Rec.isPolygon = false) :=
  c10_polygon_invariants c10Text c10Rec (by decide)

/-- Skipping decisions agree for seen-id lists with the same membership
on the ids occurring in the pair list. -/
theorem aux_seen_congr :
    ∀ (pairs : List (List Char × List Char)) (s1 s2 : List String),
      (∀ p ∈ pairs, (stripTrimId p.1 ∈ s1 ↔ stripTrimId p.1 ∈ s2)) →
      parseNotamsAux pairs s1 = parseNotamsAux pairs s2 := by
  intro pairs
  induction pairs with
  | nil => intro s1 s2 _; rfl
  | cons hd tl ih =>
    intro s1 s2 hiff
    obtain ⟨rid, seg⟩ := hd
    have hh := hiff (rid, seg) (List.mem_cons_self _ _)
    unfold parseNotamsAux
    by_cases hmem : stripTrimId rid ∈ s1
    · rw [if_pos hmem, if_pos (hh.mp hmem)]
      exact ih s1 s2 (fun p hp => hiff p (List.mem_cons_of_mem _ hp))
    · rw [if_neg hmem, if_neg (fun hc => hmem (hh.mpr hc))]
      congr 1
      exact ih _ _ (fun p hp => by
        simp only [List.mem_cons]
        exact or_congr Iff.rfl (hiff p (List.mem_cons_of_mem _ hp)))

/-- Once an id is in the seen set, all its pairs are skipped. -/
theorem aux_filter_of_mem_seen :
    ∀ (pairs : List (List Char × List Char)) (seen : List String) (id : String),
      id ∈ seen →
      parseNotamsAux pairs seen =
        parseNotamsAux (pairs.filter (fun p => stripTrimId p.1 ≠ id)) seen := by
  intro pairs
  induction pairs with
  | nil => intro seen id _; rfl
  | cons hd tl ih =>
    intro seen id hid
    obtain ⟨rid, seg⟩ := hd
    by_cases heq : stripTrimId rid = id
    · have e1 : parseNotamsAux ((rid, seg) :: tl) seen =
          if stripTrimId rid ∈ seen then parseNotamsAux tl seen
          else processNotice (stripTrimId rid) seg ++
            parseNotamsAux tl (stripTrimId rid :: seen) := rfl
      rw [e1, if_pos (heq ▸ hid), List.filter_cons_of_neg (by simp [heq])]
      exact ih seen id hid
    · rw [List.filter_cons_of_pos (by simp [heq])]
      unfold parseNotamsAux
      by_cases hmem : stripTrimId rid ∈ seen
      · rw [if_pos hmem, if_pos hmem]
        exact ih seen id hid
      · rw [if_neg hmem, if_neg hmem]
        congr 1
        exact ih (stripTrimId rid :: seen) id (List.mem_cons_of_mem _ hid)

/-- A pair whose id already occurred earlier (or is already seen)
contributes nothing and can be removed. -/
theorem aux_drop_later_dup :
    ∀ (l1 : List (List Char × List Char)) (p : List Char × List Char)
      (l2 : List (List Char × List Char)) (seen : List String),
      (stripTrimId p.1 ∈ l1.map (fun q => stripTrimId q.1) ∨ stripTrimId p.1 ∈ seen) →
      parseNotamsAux (l1 ++ p :: l2) seen = parseNotamsAux (l1 ++ l2) seen := by
  intro l1
  induction l1 with
  | nil =>
    intro p l2 seen h
    obtain ⟨rid, seg⟩ := p
    rcases h with h | h
    · simp at h
    · simp only [List.nil_append]
      have e1 : parseNotamsAux ((rid, seg) :: l2) seen =
          if stripTrimId rid ∈ seen then parseNotamsAux l2 seen
          else processNotice (stripTrimId rid) seg ++
            parseNotamsAux l2 (stripTrimId rid :: seen) := rfl
      rw [e1, if_pos h]
  | cons q l1' ih =>
    intro p l2 seen h
    obtain ⟨ridq, segq⟩ := q
    simp only [List.cons_append]
    have e1 : ∀ rest, parseNotamsAux ((ridq, segq) :: rest) seen =
        if stripTrimId ridq ∈ seen then parseNotamsAux rest seen
        else processNotice (stripTrimId ridq) segq ++
          parseNotamsAux rest (stripTrimId ridq :: seen) := fun rest => rfl
    rw [e1, e1]
    by_cases hmem : stripTrimId ridq ∈ seen
    · rw [if_pos hmem, if_pos hmem]
      apply ih
      rcases h with h | h
      · simp only [List.map_cons, List.mem_cons] at h
        rcases h with h | h
        · exact Or.inr (h ▸ hmem)
        · exact Or.inl h
      · exact Or.inr h
    · rw [if_neg hmem, if_neg hmem]
      congr 1
      apply ih
      rcases h with h | h
      · simp only [List.map_cons, List.mem_cons] at h
        rcases h with h | h
        · exact Or.inr (by rw [h]; exact List.mem_cons_self _ _)
        · exact Or.inl h
      · exact Or.inr (List.mem_cons_of_mem _ h)

/-- C5: when an id occurs again later in the segmentation, the later
occurrence contributes no records and removing it leaves the output —
including the records of the first occurrence's body — unchanged. -/
theorem c5_first_occurrence_wins (text : String)
    (l1 l2 : List (List Char × List Char)) (rid seg : List Char)
    (hsplit : (splitNotam text.data).2 = l1 ++ (rid, seg) :: l2)
    (hdup : stripTrimId rid ∈ l1.map (fun q => stripTrimId q.1)) :
    parseNotams text = parseNotamsAux (l1 ++ l2) [] := by
  unfold parseNotams
  rw [hsplit]
  exact aux_drop_later_dup l1 (rid, seg) l2 [] (Or.inl hdup)

set_option maxRecDepth 1000000 in
/-- C5 (witness): a bulletin repeating id `A1111/25`; the repeated
occurrence is dropped wholesale. -/
theorem c5_first_occurrence_wins_witness :
    parseNotams
        "A1111/25 NOTAMN\nE) PSN 490204N 0022140E\nX\nA1111/25 NOTAMN\nE) PSN 520000N 0030000E" =
      parseNotamsAux [("A1111/25".data, "\nE) PSN 490204N 0022140E\nX".data)] [] :=
  c5_first_occurrence_wins _
    [("A1111/25".data, "\nE) PSN 490204N 0022140E\nX".data)] []
    "A1111/25".data "\nE) PSN 520000N 0030000E".data (by decide) (by decide)

/-- A notice without coordinate groups emits no records. -/
theorem processNotice_eq_nil {id : String} {seg : List Char}
    (h : noticeGroups (noticeContent seg) = []) : processNotice id seg = [] := by
  unfold processNotice
  dsimp only
  rw [h]
  rfl

/-- If the first occurrence of an id yields no records, the whole run
equals the run on the other notices (every pair of that id removed). -/
theorem aux_first_empty :
    ∀ (l1 : List (List Char × List Char)) (rid seg : List Char)
      (l2 : List (List Char × List Char)) (seen : List String),
      stripTrimId rid ∉ l1.map (fun q => stripTrimId q.1) →
      stripTrimId rid ∉ seen →
      processNotice (stripTrimId rid) seg = [] →
      parseNotamsAux (l1 ++ (rid, seg) :: l2) seen =
        parseNotamsAux ((l1 ++ l2).filter (fun p => stripTrimId p.1 ≠ stripTrimId rid)) seen := by
  intro l1
  induction l1 with
  | nil =>
    intro rid seg l2 seen _ hseen hnil
    simp only [List.nil_append]
    have e1 : parseNotamsAux ((rid, seg) :: l2) seen =
        if stripTrimId rid ∈ seen then parseNotamsAux l2 seen
        else processNotice (stripTrimId rid) seg ++
          parseNotamsAux l2 (stripTrimId rid :: seen) := rfl
    rw [e1, if_neg hseen, hnil, List.nil_append,
      aux_filter_of_mem_seen l2 _ (stripTrimId rid) (List.mem_cons_self _ _)]
    exact aux_seen_congr _ _ _ (fun p hp => by
      have hne : stripTrimId p.1 ≠ stripTrimId rid := by
        have := (List.mem_filter.mp hp).2
        simpa using this
      simp [List.mem_cons, hne])
  | cons q l1' ih =>
    intro rid seg l2 seen hl1 hseen hnil
    obtain ⟨ridq, segq⟩ := q
    have hqne : stripTrimId ridq ≠ stripTrimId rid := by
      intro hc
      exact hl1 (by simp [hc])
    have hl1' : stripTrimId rid ∉ l1'.map (fun q => stripTrimId q.1) := by
      intro hc
      exact hl1 (by simp only [List.map_cons, List.mem_cons]; exact Or.inr hc)
    simp only [List.cons_append]
    have e1 : ∀ rest, parseNotamsAux ((ridq, segq) :: rest) seen =
        if stripTrimId ridq ∈ seen then parseNotamsAux rest seen
        else processNotice (stripTrimId ridq) segq ++
          parseNotamsAux rest (stripTrimId ridq :: seen) := fun rest => rfl
    rw [List.filter_cons_of_pos (by simpa using hqne), e1, e1]
    by_cases hmem : stripTrimId ridq ∈ seen
    · rw [if_pos hmem, if_pos hmem]
      exact ih rid seg l2 seen hl1' hseen hnil
    · rw [if_neg hmem, if_neg hmem]
      congr 1
      exact ih rid seg l2 (stripTrimId ridq :: seen) hl1'
        (by
          intro hc
          rcases List.mem_cons.mp hc with hc | hc
          · exact hqne hc.symm
          · exact hseen hc)
        hnil

/-- C4: a notice from which neither the E) section nor the Q) qualifier
line yields any coordinate group contributes no records: the output
equals the run on the remaining notices, and no emitted record carries
that notice's id. -/
theorem c4_unlocatable_notice_dropped (text : String)
    (l1 l2 : List (List Char × List Char)) (rid seg : List Char)
    (hsplit : (splitNotam text.data).2 = l1 ++ (rid, seg) :: l2)
    (hfirst : stripTrimId rid ∉ l1.map (fun q => stripTrimId q.1))
    (hempty : noticeGroups (noticeContent seg) = []) :
    parseNotams text =
      parseNotamsAux ((l1 ++ l2).filter
        (fun p => stripTrimId p.1 ≠ stripTrimId rid)) [] ∧
    ∀ r ∈ parseNotams text, r.id ≠ stripTrimId rid := by
  have hmain : parseNotams text =
      parseNotamsAux ((l1 ++ l2).filter
        (fun p => stripTrimId p.1 ≠ stripTrimId rid)) [] := by
    unfold parseNotams
    rw [hsplit]
    exact aux_first_empty l1 rid seg l2 [] hfirst (by simp)
      (processNotice_eq_nil hempty)
  refine ⟨hmain, ?_⟩
  intro r hr
  rw [hmain] at hr
  obtain ⟨p, hp, hproc⟩ := mem_parseNotamsAux _ _ hr
  obtain ⟨hid, _⟩ := mem_processNotice hproc
  have hne : stripTrimId p.1 ≠ stripTrimId rid := by
    have := (List.mem_filter.mp hp).2
    simpa using this
  rw [hid]
  exact hne

/-- Scanning fresh plain items (no standalone PSN, at or past the
extraction start, decodable, pairwise-new keys) only appends them to the
working sequence. -/
theorem scan_fresh_run (st : ℕ) :
    ∀ (items : List ScanItem) (cur : List Coord),
      (∀ it ∈ items, it.standalonePsn = false ∧ st ≤ it.index ∧
        ∃ p : ℚ × ℚ, it.dec = some p) →
      (cur.map (fun c => posKey6 c.lat c.lon) ++ items.filterMap itemKey6).Nodup →
      items.foldl (scanStep st)
          ⟨[], cur, cur.map (fun c => posKey6 c.lat c.lon), [], false⟩ =
        ⟨[], cur ++ items.filterMap itemCoordOf,
          (cur ++ items.filterMap itemCoordOf).map (fun c => posKey6 c.lat c.lon),
          [], false⟩ := by
  intro items
  induction items with
  | nil =>
    intro cur _ _
    simp
  | cons it tl ih =>
    intro cur hplain hnodup
    obtain ⟨hpsn, hidx, ⟨la, lo⟩, hdec⟩ := hplain it (List.mem_cons_self _ _)
    have hkey : itemKey6 it = some (posKey6 la lo) := by
      unfold itemKey6
      rw [hdec]
      rfl
    have hcoord : itemCoordOf it = some (mkPsnCoord it.coordStr la lo) := by
      unfold itemCoordOf
      rw [hdec]
      rfl
    have hfm : (it :: tl).filterMap itemKey6 =
        posKey6 la lo :: tl.filterMap itemKey6 := by
      simp [List.filterMap_cons, hkey]
    rw [hfm] at hnodup
    have hnotin : posKey6 la lo ∉ cur.map (fun c => posKey6 c.lat c.lon) := by
      intro hc
      obtain ⟨-, -, hdisj⟩ := List.nodup_append.mp hnodup
      exact hdisj hc (List.mem_cons_self _ _)
    have hstep : scanStep st ⟨[], cur, cur.map (fun c => posKey6 c.lat c.lon), [], false⟩ it =
        ⟨[], cur ++ [mkPsnCoord it.coordStr la lo],
          (cur ++ [mkPsnCoord it.coordStr la lo]).map (fun c => posKey6 c.lat c.lon),
          [], false⟩ := by
      unfold scanStep
      rw [hdec]
      dsimp only
      rw [if_neg (by simp [hpsn]), if_neg (by omega : ¬it.index < st),
        if_neg (List.not_mem_nil _), if_neg hnotin]
      simp [List.map_append, mkPsnCoord]
    rw [List.foldl_cons, hstep]
    have hmap : (cur ++ [mkPsnCoord it.coordStr la lo]).map (fun c => posKey6 c.lat c.lon) =
        cur.map (fun c => posKey6 c.lat c.lon) ++ [posKey6 la lo] := by
      simp [List.map_append, mkPsnCoord]
    have hnodup' : ((cur ++ [mkPsnCoord it.coordStr la lo]).map (fun c => posKey6 c.lat c.lon) ++
        tl.filterMap itemKey6).Nodup := by
      rw [hmap, List.append_assoc]
      simpa using hnodup
    have := ih (cur ++ [mkPsnCoord it.coordStr la lo])
      (fun it' hit' => hplain it' (List.mem_cons_of_mem _ hit')) hnodup'
    rw [this]
    simp [List.filterMap_cons, hcoord, List.append_assoc]

set_option maxRecDepth 1000000 in
/-- C3 (counterexample): a bulletin whose single notice's E) section is a
closed ring of 9 dash-connected coordinates (last equals first) but has
no PSN / CENTRED ON / area trigger keyword yields zero records, not one
polygon record. -/
theorem c3_counterexample :
    parseNotams
        "A1234/25 NOTAMN\nE) 500000N 0100000E - 510000N 0100000E - 520000N 0100000E - 530000N 0100000E - 540000N 0100000E - 550000N 0100000E - 560000N 0100000E - 570000N 0100000E - 500000N 0100000E" =
      [] := by
  decide

/-- C3 (amended): a bulletin with one notice whose E) section contains
an area trigger keyword and exactly 9 coordinate tokens forming a closed
ring — all plain (no standalone PSN, at or past the extraction start),
the first 8 decoding to pairwise-distinct positions (at the ~1 m key)
and the 9th decoding to the same position as the first — yields exactly
one record, with `isPolygon = true` and the 8 distinct vertices as its
group; the duplicate closing coordinate is not added as a 9th member. -/
theorem c3_closed_ring_polygon (text : String) (rid seg eC : List Char)
    (i1 i2 i3 i4 i5 i6 i7 i8 i9 : ScanItem) (p1 p2 p3 p4 p5 p6 p7 p8 : ℚ × ℚ)
    (hsplit : splitNotam text.data = ([], [(rid, seg)]))
    (heC : eSection (noticeContent seg) = some eC)
    (harea : hasAreaKeywords eC = true)
    (hitems : extractItems eC = [i1, i2, i3, i4, i5, i6, i7, i8, i9])
    (hplain : ∀ it ∈ [i1, i2, i3, i4, i5, i6, i7, i8, i9],
      it.standalonePsn = false ∧ extractionStartIndex eC ≤ it.index)
    (hd1 : i1.dec = some p1) (hd2 : i2.dec = some p2) (hd3 : i3.dec = some p3)
    (hd4 : i4.dec = some p4) (hd5 : i5.dec = some p5) (hd6 : i6.dec = some p6)
    (hd7 : i7.dec = some p7) (hd8 : i8.dec = some p8) (hd9 : i9.dec = some p1)
    (hnodup : ([p1, p2, p3, p4, p5, p6, p7, p8].map (fun p => posKey6 p.1 p.2)).Nodup) :
    parseNotams text =
      [{ id := stripTrimId rid
         fullContent := cleanNotamContent (noticeContent seg)
         coordinates :=
           [mkPsnCoord i1.coordStr p1.1 p1.2, mkPsnCoord i2.coordStr p2.1 p2.2,
            mkPsnCoord i3.coordStr p3.1 p3.2, mkPsnCoord i4.coordStr p4.1 p4.2,
            mkPsnCoord i5.coordStr p5.1 p5.2, mkPsnCoord i6.coordStr p6.1 p6.2,
            mkPsnCoord i7.coordStr p7.1 p7.2, mkPsnCoord i8.coordStr p8.1 p8.2]
         icaoCodes := icaoCodesFrom (noticeContent seg)
         isPolygon := true }] := by
  have hdecs : ∀ it ∈ [i1, i2, i3, i4, i5, i6, i7, i8],
      it.standalonePsn = false ∧ extractionStartIndex eC ≤ it.index ∧
        ∃ p : ℚ × ℚ, it.dec = some p := by
    intro it hit
    refine ⟨(hplain it (by revert hit; simp; tauto)).1,
      (hplain it (by revert hit; simp; tauto)).2, ?_⟩
    revert hit
    simp only [List.mem_cons, List.not_mem_nil, or_false]
    rintro (rfl | rfl | rfl | rfl | rfl | rfl | rfl | rfl)
    · exact ⟨p1, hd1⟩
    · exact ⟨p2, hd2⟩
    · exact ⟨p3, hd3⟩
    · exact ⟨p4, hd4⟩
    · exact ⟨p5, hd5⟩
    · exact ⟨p6, hd6⟩
    · exact ⟨p7, hd7⟩
    · exact ⟨p8, hd8⟩
  have hfmk : [i1, i2, i3, i4, i5, i6, i7, i8].filterMap itemKey6 =
      [p1, p2, p3, p4, p5, p6, p7, p8].map (fun p => posKey6 p.1 p.2) := by
    simp [List.filterMap_cons, itemKey6, hd1, hd2, hd3, hd4, hd5, hd6, hd7, hd8]
  have hfmc : [i1, i2, i3, i4, i5, i6, i7, i8].filterMap itemCoordOf =
      [mkPsnCoord i1.coordStr p1.1 p1.2, mkPsnCoord i2.coordStr p2.1 p2.2,
       mkPsnCoord i3.coordStr p3.1 p3.2, mkPsnCoord i4.coordStr p4.1 p4.2,
       mkPsnCoord i5.coordStr p5.1 p5.2, mkPsnCoord i6.coordStr p6.1 p6.2,
       mkPsnCoord i7.coordStr p7.1 p7.2, mkPsnCoord i8.coordStr p8.1 p8.2] := by
    simp [List.filterMap_cons, itemCoordOf, hd1, hd2, hd3, hd4, hd5, hd6, hd7, hd8]
  have hrun := scan_fresh_run (extractionStartIndex eC) [i1, i2, i3, i4, i5, i6, i7, i8]
    [] hdecs (by simpa [hfmk] using hnodup)
  rw [hfmc] at hrun
  simp only [List.map_nil, List.nil_append] at hrun
  have hscan : classifyScan (extractionStartIndex eC) [i1, i2, i3, i4, i5, i6, i7, i8, i9] =
      [[mkPsnCoord i1.coordStr p1.1 p1.2, mkPsnCoord i2.coordStr p2.1 p2.2,
        mkPsnCoord i3.coordStr p3.1 p3.2, mkPsnCoord i4.coordStr p4.1 p4.2,
        mkPsnCoord i5.coordStr p5.1 p5.2, mkPsnCoord i6.coordStr p6.1 p6.2,
        mkPsnCoord i7.coordStr p7.1 p7.2, mkPsnCoord i8.coordStr p8.1 p8.2]] := by
    unfold classifyScan
    rw [show ([i1, i2, i3, i4, i5, i6, i7, i8, i9] : List ScanItem) =
      [i1, i2, i3, i4, i5, i6, i7, i8] ++ [i9] from rfl]
    rw [List.foldl_append, hrun]
    rw [List.foldl_cons, List.foldl_nil]
    have hstep9 : scanStep (extractionStartIndex eC)
        ⟨[], [mkPsnCoord i1.coordStr p1.1 p1.2, mkPsnCoord i2.coordStr p2.1 p2.2,
          mkPsnCoord i3.coordStr p3.1 p3.2, mkPsnCoord i4.coordStr p4.1 p4.2,
          mkPsnCoord i5.coordStr p5.1 p5.2, mkPsnCoord i6.coordStr p6.1 p6.2,
          mkPsnCoord i7.coordStr p7.1 p7.2, mkPsnCoord i8.coordStr p8.1 p8.2],
          [mkPsnCoord i1.coordStr p1.1 p1.2, mkPsnCoord i2.coordStr p2.1 p2.2,
          mkPsnCoord i3.coordStr p3.1 p3.2, mkPsnCoord i4.coordStr p4.1 p4.2,
          mkPsnCoord i5.coordStr p5.1 p5.2, mkPsnCoord i6.coordStr p6.1 p6.2,
          mkPsnCoord i7.coordStr p7.1 p7.2,
          mkPsnCoord i8.coordStr p8.1 p8.2].map (fun c => posKey6 c.lat c.lon),
          [], false⟩ i9 =
        ⟨[[mkPsnCoord i1.coordStr p1.1 p1.2, mkPsnCoord i2.coordStr p2.1 p2.2,
          mkPsnCoord i3.coordStr p3.1 p3.2, mkPsnCoord i4.coordStr p4.1 p4.2,
          mkPsnCoord i5.coordStr p5.1 p5.2, mkPsnCoord i6.coordStr p6.1 p6.2,
          mkPsnCoord i7.coordStr p7.1 p7.2, mkPsnCoord i8.coordStr p8.1 p8.2]], [], [],
          [mkPsnCoord i1.coordStr p1.1 p1.2, mkPsnCoord i2.coordStr p2.1 p2.2,
          mkPsnCoord i3.coordStr p3.1 p3.2, mkPsnCoord i4.coordStr p4.1 p4.2,
          mkPsnCoord i5.coordStr p5.1 p5.2, mkPsnCoord i6.coordStr p6.1 p6.2,
          mkPsnCoord i7.coordStr p7.1 p7.2,
          mkPsnCoord i8.coordStr p8.1 p8.2].map (fun c => posKey3 c.lat c.lon),
          true⟩ := by
      obtain ⟨hpsn9, hidx9⟩ := hplain i9 (by simp)
      unfold scanStep
      rw [hd9]
      dsimp only
      rw [if_neg (by simp [hpsn9]), if_neg (by omega : ¬i9.index < extractionStartIndex eC),
        if_neg (List.not_mem_nil _),
        if_pos (by simp [mkPsnCoord, posKey6] : posKey6 p1.1 p1.2 ∈ _),
        if_pos (by constructor <;> simp)]
      simp [mkPsnCoord]
    rw [hstep9]
    simp
  have hgroups : noticeEGroups (noticeContent seg) =
      [[mkPsnCoord i1.coordStr p1.1 p1.2, mkPsnCoord i2.coordStr p2.1 p2.2,
        mkPsnCoord i3.coordStr p3.1 p3.2, mkPsnCoord i4.coordStr p4.1 p4.2,
        mkPsnCoord i5.coordStr p5.1 p5.2, mkPsnCoord i6.coordStr p6.1 p6.2,
        mkPsnCoord i7.coordStr p7.1 p7.2, mkPsnCoord i8.coordStr p8.1 p8.2]] := by
    unfold noticeEGroups
    rw [heC]
    dsimp only
    rw [show (hasPsnKeyword eC || hasCentredOn eC || hasAreaKeywords eC) = true by
      rw [harea]; simp]
    rw [if_pos rfl, hitems, hscan]
  have hng : noticeGroups (noticeContent seg) =
      [[mkPsnCoord i1.coordStr p1.1 p1.2, mkPsnCoord i2.coordStr p2.1 p2.2,
        mkPsnCoord i3.coordStr p3.1 p3.2, mkPsnCoord i4.coordStr p4.1 p4.2,
        mkPsnCoord i5.coordStr p5.1 p5.2, mkPsnCoord i6.coordStr p6.1 p6.2,
        mkPsnCoord i7.coordStr p7.1 p7.2, mkPsnCoord i8.coordStr p8.1 p8.2]] := by
    unfold noticeGroups
    rw [hgroups]
  have hpoly : isPolygonFor (eSection (noticeContent seg))
      [mkPsnCoord i1.coordStr p1.1 p1.2, mkPsnCoord i2.coordStr p2.1 p2.2,
        mkPsnCoord i3.coordStr p3.1 p3.2, mkPsnCoord i4.coordStr p4.1 p4.2,
        mkPsnCoord i5.coordStr p5.1 p5.2, mkPsnCoord i6.coordStr p6.1 p6.2,
        mkPsnCoord i7.coordStr p7.1 p7.2, mkPsnCoord i8.coordStr p8.1 p8.2] = true := by
    rw [heC]
    simp only [isPolygonFor]
    rw [if_pos (by simp), harea]
    simp
  unfold parseNotams
  rw [hsplit]
  show parseNotamsAux [(rid, seg)] [] = _
  have e1 : parseNotamsAux [(rid, seg)] [] =
      processNotice (stripTrimId rid) seg ++ parseNotamsAux [] [stripTrimId rid] := by
    have : parseNotamsAux [(rid, seg)] [] =
        if stripTrimId rid ∈ ([] : List String) then parseNotamsAux [] []
        else processNotice (stripTrimId rid) seg ++ parseNotamsAux [] [stripTrimId rid] := rfl
    rw [this, if_neg (List.not_mem_nil _)]
  rw [e1]
  show processNotice (stripTrimId rid) seg ++ [] = _
  rw [List.append_nil]
  unfold processNotice
  dsimp only
  rw [hng]
  simp [hpoly]

set_option maxRecDepth 1000000 in
/-- C3 (witness for the amended theorem): the concrete 9-coordinate
closed ring of `c3RingText` yields exactly one polygon record holding
the 8 distinct vertices. -/
theorem c3_closed_ring_polygon_witness :
    parseNotams c3RingText =
      [{ id := stripTrimId "A1234/25".data
         fullContent := cleanNotamContent (noticeContent c3Seg)
         coordinates :=
           [mkPsnCoord c3i1.coordStr 50 10, mkPsnCoord c3i2.coordStr 51 10,
            mkPsnCoord c3i3.coordStr 52 10, mkPsnCoord c3i4.coordStr 53 10,
            mkPsnCoord c3i5.coordStr 54 10, mkPsnCoord c3i6.coordStr 55 10,
            mkPsnCoord c3i7.coordStr 56 10, mkPsnCoord c3i8.coordStr 57 10]
         icaoCodes := icaoCodesFrom (noticeContent c3Seg)
         isPolygon := true }] :=
  c3_closed_ring_polygon c3RingText "A1234/25".data c3Seg c3EC
    c3i1 c3i2 c3i3 c3i4 c3i5 c3i6 c3i7 c3i8 c3i9
    (50, 10) (51, 10) (52, 10) (53, 10) (54, 10) (55, 10) (56, 10) (57, 10)
    (by decide) (by decide) (by decide) (by decide) (by decide)
    (by decide) (by decide) (by decide) (by decide) (by decide)
    (by decide) (by decide) (by decide) (by decide) (by decide)

set_option maxRecDepth 1000000 in
/-- C4 (witness): a two-notice bulletin whose first notice has no
extractable coordinates; only the second notice's records survive and no
record carries the first id. -/
theorem c4_unlocatable_notice_dropped_witness :
    parseNotams
        "A1111/25 NOTAMN\nE) NOTHING USEFUL HERE\n\nB2222/25 NOTAMN\nA) LFPG\nE) OBSTACLE AT PSN 490204N 0022140E" =
      parseNotamsAux
        ([("B2222/25".data, "\nA) LFPG\nE) OBSTACLE AT PSN 490204N 0022140E".data)].filter
          (fun p => stripTrimId p.1 ≠ stripTrimId "A1111/25".data)) [] ∧
    ∀ r ∈ parseNotams
        "A1111/25 NOTAMN\nE) NOTHING USEFUL HERE\n\nB2222/25 NOTAMN\nA) LFPG\nE) OBSTACLE AT PSN 490204N 0022140E",
      r.id ≠ stripTrimId "A1111/25".data :=
  c4_unlocatable_notice_dropped _ []
    [("B2222/25".data, "\nA) LFPG\nE) OBSTACLE AT PSN 490204N 0022140E".data)]
    "A1111/25".data "\nE) NOTHING USEFUL HERE".data
    (by decide) (by decide) (by decide)

end Notam
